import Mathlib

/-!
# Verification of the clinical-history text pipeline

A shallow embedding of `services/clinicalHistoryGenerator.js`: the text
normalizer (`preprocessText`), the regex-based medical-info extractors, the
clinical-reasoning enrichment step, and the report renderers (SOAP,
narrative, structured) together with the metadata footer and the top-level
`generate` entry point.

Strings are modelled as Lean `String`s; the scanning functions work on the
underlying `List Char`.  Each JavaScript regex used by the source is
embedded as a bespoke positional matcher that reproduces the regex's
leftmost-match, greedy/lazy and backtracking behaviour on the concrete
pattern shape in question.  Timestamps (`moment()` calls) are passed in as
explicit string parameters.
-/

namespace ClinicalGen

/-! ## Character-level helpers (JS semantics) -/

/-- ASCII lower-casing of a character, as `String.prototype.toLowerCase`
acts on the ASCII range (the extractors only ever receive printable ASCII
after preprocessing). -/
def lowerChar (c : Char) : Char :=
  if 'A' ≤ c ∧ c ≤ 'Z' then Char.ofNat (c.toNat + 32) else c

/-- ASCII upper-casing of a character (`String.prototype.toUpperCase`). -/
def upperChar (c : Char) : Char :=
  if 'a' ≤ c ∧ c ≤ 'z' then Char.ofNat (c.toNat - 32) else c

/-- JS regex word character (`\w` = `[A-Za-z0-9_]`), used for `\b`. -/
def isWordChar (c : Char) : Bool :=
  ('a' ≤ c ∧ c ≤ 'z') ∨ ('A' ≤ c ∧ c ≤ 'Z') ∨ ('0' ≤ c ∧ c ≤ '9') ∨ c = '_'

/-- ASCII digit (`\d`). -/
def isDigitChar (c : Char) : Bool := '0' ≤ c ∧ c ≤ '9'

/-- JS regex whitespace class `\s` (WhiteSpace ∪ LineTerminator). -/
def isJsWs (c : Char) : Bool :=
  c = ' ' ∨ c = '\t' ∨ c = '\n' ∨ c = '\r' ∨ c = '\x0b' ∨ c = '\x0c' ∨
  c = '\u00a0' ∨ c = '\u1680' ∨ ('\u2000' ≤ c ∧ c ≤ '\u200a') ∨
  c = '\u2028' ∨ c = '\u2029' ∨ c = '\u202f' ∨ c = '\u205f' ∨
  c = '\u3000' ∨ c = '\ufeff'

/-- The character class `[:\s]` used by the labelled-field patterns. -/
def isLabelSep (c : Char) : Bool := c = ':' ∨ isJsWs c

/-! ## TextNormalizer: `preprocessText`

```js
preprocessText(text) {
  if (!text) return '';
  return text
    .replace(/\r\n/g, '\n')
    .replace(/\r/g, '\n')
    .replace(/\n{3,}/g, '\n\n')
    .replace(/[^\x20-\x7E\n]/g, '')
    .replace(/\s+/g, ' ')
    .trim();
}
``` -/

/-- `.replace(/\r\n/g, '\n')`. -/
def replaceCRLF : List Char → List Char
  | [] => []
  | [c] => [c]
  | c :: d :: rest =>
    if c = '\r' ∧ d = '\n' then '\n' :: replaceCRLF rest
    else c :: replaceCRLF (d :: rest)

/-- `.replace(/\r/g, '\n')`. -/
def replaceCR (l : List Char) : List Char :=
  l.map (fun c => if c = '\r' then '\n' else c)

/-- What a maximal newline run of length `n` is rewritten to by
`.replace(/\n{3,}/g, '\n\n')`. -/
def emitNLRun (n : Nat) : List Char :=
  if 3 ≤ n then ['\n', '\n'] else List.replicate n '\n'

/-- State-passing scan for `.replace(/\n{3,}/g, '\n\n')`; `n` counts the
newline run accumulated so far. -/
def collapseNLAux : Nat → List Char → List Char
  | n, [] => emitNLRun n
  | n, c :: rest =>
    if c = '\n' then collapseNLAux (n + 1) rest
    else emitNLRun n ++ c :: collapseNLAux 0 rest

/-- `.replace(/\n{3,}/g, '\n\n')`. -/
def collapseNewlines (l : List Char) : List Char := collapseNLAux 0 l

/-- `.replace(/[^\x20-\x7E\n]/g, '')`. -/
def filterPrintable (l : List Char) : List Char :=
  l.filter (fun c => ('\x20' ≤ c ∧ c ≤ '\x7e') ∨ c = '\n')

/-- State-passing scan for `.replace(/\s+/g, ' ')`; the flag records
whether the previous character was part of a whitespace run. -/
def collapseWSAux : Bool → List Char → List Char
  | _, [] => []
  | inWs, c :: rest =>
    if isJsWs c then
      if inWs then collapseWSAux true rest else ' ' :: collapseWSAux true rest
    else c :: collapseWSAux false rest

/-- `.replace(/\s+/g, ' ')`. -/
def collapseWS (l : List Char) : List Char := collapseWSAux false l

/-- `String.prototype.trim` (strip JS whitespace at both ends). -/
def jsTrimList (l : List Char) : List Char :=
  ((l.dropWhile isJsWs).reverse.dropWhile isJsWs).reverse

/-- `String.prototype.trim` on `String`. -/
def jsTrim (s : String) : String := ⟨jsTrimList s.data⟩

/-- The normalization pipeline on character lists. -/
def preprocessList (l : List Char) : List Char :=
  jsTrimList (collapseWS (filterPrintable (collapseNewlines (replaceCR (replaceCRLF l)))))

/-- `preprocessText` from the source (the `!text` guard maps the empty
string to itself). -/
def preprocessText (s : String) : String :=
  if s = "" then "" else ⟨preprocessList s.data⟩

/-! ## Positional regex matching primitives

Each JS regex is embedded as a matcher that is tried at one start
position; `scanFirst` supplies the leftmost-match search of
`String.prototype.match` with a non-global regex.  `prev` is the character
just before the current position (needed for `\b`). -/

/-- Try `f prev suffix` at every position from left to right and return the
first success — the leftmost-match rule. -/
def scanPos (f : Option Char → List Char → Option α) :
    Option Char → List Char → Option α
  | prev, [] => f prev []
  | prev, c :: cs =>
    match f prev (c :: cs) with
    | some a => some a
    | none => scanPos f (some c) cs

/-- Leftmost match of a positional matcher over a whole string. -/
def scanFirst (f : Option Char → List Char → Option α) (l : List Char) : Option α :=
  scanPos f none l

/-- `\b`: exactly one of the two neighbouring characters is a word
character; string edges count as non-word. -/
def isBoundary (prev next : Option Char) : Bool :=
  (match prev with | none => false | some c => isWordChar c) ≠
  (match next with | none => false | some c => isWordChar c)

/-- Match a literal (case-insensitively, flag `i`) at the head of the
input; returns the rest. -/
def matchLitCI : List Char → List Char → Option (List Char)
  | [], l => some l
  | _ :: _, [] => none
  | p :: ps, c :: cs => if lowerChar c = lowerChar p then matchLitCI ps cs else none

/-- Like `matchLitCI` but also returns the last input character consumed
(needed to evaluate a trailing `\b`). -/
def matchLitCITrack : Option Char → List Char → List Char → Option (Option Char × List Char)
  | lastc, [], l => some (lastc, l)
  | _, _ :: _, [] => none
  | _, p :: ps, c :: cs =>
    if lowerChar c = lowerChar p then matchLitCITrack (some c) ps cs else none

/-- Match the body of a dictionary-term pattern
(`term.replace(/\s+/g, '\\s+')`): each space of the term matches one or
more `\s` characters (greedily — the following term character is never
whitespace), other characters match case-insensitively.  Returns the last
consumed character and the rest. -/
def matchTermBody : Option Char → List Char → List Char → Option (Option Char × List Char)
  | lastc, [], l => some (lastc, l)
  | _, _ :: _, [] => none
  | _, p :: ps, c :: cs =>
    if p = ' ' then
      if isJsWs c then
        matchTermBody (some ((cs.takeWhile isJsWs).getLast?.getD c)) ps (cs.dropWhile isJsWs)
      else none
    else
      if lowerChar c = lowerChar p then matchTermBody (some c) ps cs else none

/-- `new RegExp('\\b' + term.replace(/\s+/g, '\\s+') + '\\b', 'i').test(text)`:
the dictionary-term test of `extractSymptoms` / `extractConditions` /
`extractProcedures`. -/
def testTerm (term : String) (text : String) : Bool :=
  (scanFirst (fun prev l =>
    if isBoundary prev l.head? then
      match matchTermBody none term.data l with
      | some (lastc, rest) => if isBoundary lastc rest.head? then some () else none
      | none => none
    else none) text.data).isSome

/-- `new RegExp('\\b' + medication + '\\b', 'i').test(text)`: the
medication-name test (no `\s+` rewriting — the term is used verbatim). -/
def testWordLit (w : String) (text : String) : Bool :=
  (scanFirst (fun prev l =>
    if isBoundary prev l.head? then
      match matchLitCITrack none w.data l with
      | some (lastc, rest) => if isBoundary lastc rest.head? then some () else none
      | none => none
    else none) text.data).isSome

/-- Try the alternative literals in order, each continued by `tl`; on a
continuation failure the next alternative is tried (the backtracking of a
JS alternation). -/
def altCont : List String → (List Char → Option α) → List Char → Option α
  | [], _, _ => none
  | a :: rest, tl, l =>
    match matchLitCI a.data l with
    | some r =>
      match tl r with
      | some x => some x
      | none => altCont rest tl l
    | none => altCont rest tl l

/-- Like `altCont` but also returns the length of the matched alternative
(= number of input characters the label consumed, since the alternatives
contain no quantifiers). -/
def altContLen : List String → (List Char → Option α) → List Char → Option (Nat × α)
  | [], _, _ => none
  | a :: rest, tl, l =>
    match matchLitCI a.data l with
    | some r =>
      match tl r with
      | some x => some (a.length, x)
      | none => altContLen rest tl l
    | none => altContLen rest tl l

/-- Split the input at the first `(?:\n|\.)` terminator: returns the
characters before it (the lazy `(.*?)` capture — none of them is `'\n'`
since the terminator is the first such character) and the terminator. -/
def splitAtTerm : List Char → Option (List Char × Char)
  | [] => none
  | c :: cs =>
    if c = '\n' ∨ c = '.' then some ([], c)
    else (splitAtTerm cs).map (fun p => (c :: p.1, p.2))

/-- Match `[:\s]*(.*?)(?:\n|\.)` with the regex's greedy/backtracking
behaviour: the `[:\s]*` run is consumed greedily and the lazy capture ends
at the first terminator after it; if no terminator follows the run
anywhere, the engine backs off into the run up to its last `'\n'`, which
then serves as the terminator with an empty capture.  Returns (characters
consumed, capture). -/
def tailCapture (r : List Char) : Option (List Char × List Char) :=
  let sep := r.takeWhile isLabelSep
  let rest := r.dropWhile isLabelSep
  match splitAtTerm rest with
  | some (cap, t) => some (sep ++ cap ++ [t], cap)
  | none =>
    if sep.contains '\n' then
      some ((sep.reverse.dropWhile (· ≠ '\n')).reverse, [])
    else none

/-- One-position matcher for a labelled-capture pattern
`(?:alt1|alt2|…)[:\s]*(.*?)(?:\n|\.)`; returns `(match[0], match[1])`. -/
def labeledCapAt (alts : List String) (l : List Char) : Option (List Char × List Char) :=
  (altContLen alts tailCapture l).map (fun p => (l.take p.1 ++ p.2.1, p.2.2))

/-- Leftmost match of a labelled-capture pattern over a whole string;
returns `(match[0], match[1])`. -/
def findLabeled (alts : List String) (text : String) : Option (String × String) :=
  (scanFirst (fun _ l => labeledCapAt alts l) text.data).map
    (fun p => (⟨p.1⟩, ⟨p.2⟩))

/-- Tail `[:\s]*(\d+)`: greedy separator run, then the digit capture. -/
def intTail (r : List Char) : Option (List Char) :=
  let rest := r.dropWhile isLabelSep
  let d := rest.takeWhile isDigitChar
  if d = [] then none else some d

/-- Tail `[:\s]*(\d+\.?\d*)`. -/
def decTail (r : List Char) : Option (List Char) :=
  let rest := r.dropWhile isLabelSep
  let d := rest.takeWhile isDigitChar
  if d = [] then none
  else
    match rest.drop d.length with
    | '.' :: r2 => some (d ++ '.' :: r2.takeWhile isDigitChar)
    | _ => some d

/-- Tail `[:\s]*(\d+)\/(\d+)` of the blood-pressure pattern. -/
def bpTail (r : List Char) : Option (List Char × List Char) :=
  let rest := r.dropWhile isLabelSep
  let d1 := rest.takeWhile isDigitChar
  if d1 = [] then none
  else
    match rest.drop d1.length with
    | '/' :: r2 =>
      let d2 := r2.takeWhile isDigitChar
      if d2 = [] then none else some (d1, d2)
    | _ => none

/-- `String.prototype.toLowerCase` (ASCII range). -/
def toLowerString (s : String) : String := ⟨s.data.map lowerChar⟩

/-- `String.prototype.includes`: substring containment. -/
def jsIncludes (s sub : String) : Bool := decide (sub.data <:+: s.data)

/-- `Array.prototype.join(sep)`. -/
def jsJoin (sep : String) : List String → String
  | [] => ""
  | [s] => s
  | s :: rest => s ++ sep ++ jsJoin sep rest

/-- `[...new Set(arr)]`: drop later duplicates, keeping first occurrences. -/
def dedupAux (seen : List String) : List String → List String
  | [] => []
  | s :: rest => if s ∈ seen then dedupAux seen rest else s :: dedupAux (s :: seen) rest

/-- `[...new Set(arr)]`. -/
def dedupFirst (l : List String) : List String := dedupAux [] l

/-! ## MedicalKnowledgeBase: the static term tables (`this.medicalTerms`) -/

namespace MedicalTerms

/-- `medicalTerms.complaints` (46 entries). -/
def complaints : List String := [
  "chest pain", "shortness of breath", "abdominal pain", "headache",
  "fatigue", "nausea", "dizziness", "back pain",
  "joint pain", "cough", "fever", "weight loss",
  "palpitations", "syncope", "dyspnea", "orthopnea",
  "paroxysmal nocturnal dyspnea", "edema", "claudication", "angina",
  "dysphagia", "hemoptysis", "hematuria", "melena",
  "hematochezia", "jaundice", "pruritus", "rash",
  "night sweats", "chills", "malaise", "anorexia",
  "polyuria", "polydipsia", "polyphagia", "diplopia",
  "blurred vision", "tinnitus", "vertigo", "seizures",
  "tremor", "weakness", "numbness", "tingling",
  "confusion", "memory loss"]

/-- `medicalTerms.conditions` (78 entries). -/
def conditions : List String := [
  "hypertension", "diabetes mellitus type 2", "diabetes mellitus type 1", "coronary artery disease",
  "myocardial infarction", "angina pectoris", "congestive heart failure", "atrial fibrillation",
  "atrial flutter", "ventricular tachycardia", "bradycardia", "heart block",
  "chronic obstructive pulmonary disease", "asthma", "pneumonia", "pulmonary embolism",
  "pleural effusion", "pneumothorax", "hyperlipidemia", "hypercholesterolemia",
  "hypertriglyceridemia", "chronic kidney disease", "acute kidney injury", "nephrolithiasis",
  "urinary tract infection", "benign prostatic hyperplasia", "osteoarthritis", "rheumatoid arthritis",
  "osteoporosis", "fibromyalgia", "gout", "depression",
  "anxiety", "bipolar disorder", "schizophrenia", "dementia",
  "alzheimer disease", "parkinson disease", "epilepsy", "migraine",
  "tension headache", "stroke", "transient ischemic attack", "peripheral artery disease",
  "deep vein thrombosis", "gastroesophageal reflux disease", "peptic ulcer disease", "inflammatory bowel disease",
  "irritable bowel syndrome", "hepatitis", "cirrhosis", "pancreatitis",
  "cholecystitis", "cholelithiasis", "diverticulitis", "appendicitis",
  "hernia", "thyroid disorders", "hypothyroidism", "hyperthyroidism",
  "adrenal insufficiency", "cushing syndrome", "obesity", "metabolic syndrome",
  "sleep apnea", "chronic fatigue syndrome", "anemia", "thrombocytopenia",
  "leukopenia", "lymphoma", "leukemia", "multiple myeloma",
  "breast cancer", "lung cancer", "colon cancer", "prostate cancer",
  "skin cancer", "melanoma"]

/-- `medicalTerms.medications` (98 entries). -/
def medications : List String := [
  "lisinopril", "enalapril", "losartan", "valsartan",
  "amlodipine", "nifedipine", "metoprolol", "atenolol",
  "carvedilol", "propranolol", "hydrochlorothiazide", "furosemide",
  "spironolactone", "chlorthalidone", "metformin", "glipizide",
  "glyburide", "insulin", "pioglitazone", "sitagliptin",
  "empagliflozin", "liraglutide", "atorvastatin", "simvastatin",
  "rosuvastatin", "pravastatin", "ezetimibe", "aspirin",
  "clopidogrel", "warfarin", "rivaroxaban", "apixaban",
  "heparin", "enoxaparin", "omeprazole", "pantoprazole",
  "ranitidine", "famotidine", "sucralfate", "levothyroxine",
  "methimazole", "prednisone", "prednisolone", "hydrocortisone",
  "dexamethasone", "albuterol", "ipratropium", "tiotropium",
  "fluticasone", "budesonide", "montelukast", "theophylline",
  "digoxin", "amiodarone", "diltiazem", "verapamil",
  "nitroglycerin", "isosorbide", "acetaminophen", "ibuprofen",
  "naproxen", "celecoxib", "tramadol", "morphine",
  "oxycodone", "codeine", "gabapentin", "pregabalin",
  "amitriptyline", "nortriptyline", "sertraline", "fluoxetine",
  "paroxetine", "citalopram", "escitalopram", "venlafaxine",
  "duloxetine", "bupropion", "trazodone", "mirtazapine",
  "lorazepam", "alprazolam", "clonazepam", "diazepam",
  "zolpidem", "eszopiclone", "phenytoin", "carbamazepine",
  "valproic acid", "levetiracetam", "lamotrigine", "topiramate",
  "levodopa", "carbidopa", "donepezil", "memantine",
  "rivastigmine", "galantamine"]

/-- `medicalTerms.procedures` (28 entries). -/
def procedures : List String := [
  "electrocardiogram", "ecg", "ekg", "echocardiogram",
  "stress test", "cardiac catheterization", "angiography", "chest x-ray",
  "ct scan", "mri", "ultrasound", "colonoscopy",
  "endoscopy", "bronchoscopy", "biopsy", "blood work",
  "complete blood count", "basic metabolic panel", "comprehensive metabolic panel", "lipid panel",
  "liver function tests", "thyroid function tests", "hemoglobin a1c", "glucose tolerance test",
  "urinalysis", "urine culture", "stool culture", "blood culture"]

/-- `medicalTerms.specialties` (17 entries). -/
def specialties : List String := [
  "cardiology", "pulmonology", "gastroenterology", "endocrinology",
  "nephrology", "neurology", "psychiatry", "orthopedics",
  "urology", "dermatology", "ophthalmology", "otolaryngology",
  "oncology", "hematology", "infectious disease", "rheumatology",
  "geriatrics"]

/-- `medicalTerms.icd10Codes` as an association list (56 entries). -/
def icd10Codes : List (String × String) := [
  ("hypertension", "I10"),
  ("essential hypertension", "I10"),
  ("coronary artery disease", "I25.9"),
  ("myocardial infarction", "I21.9"),
  ("acute myocardial infarction", "I21.9"),
  ("congestive heart failure", "I50.9"),
  ("heart failure", "I50.9"),
  ("atrial fibrillation", "I48.91"),
  ("chest pain", "R06.02"),
  ("angina pectoris", "I20.9"),
  ("shortness of breath", "R06.00"),
  ("dyspnea", "R06.00"),
  ("chronic obstructive pulmonary disease", "J44.9"),
  ("copd", "J44.9"),
  ("asthma", "J45.9"),
  ("pneumonia", "J18.9"),
  ("cough", "R05"),
  ("abdominal pain", "R10.9"),
  ("nausea", "R11.0"),
  ("vomiting", "R11.10"),
  ("gastroesophageal reflux disease", "K21.9"),
  ("gerd", "K21.9"),
  ("peptic ulcer disease", "K27.9"),
  ("diabetes mellitus", "E11.9"),
  ("diabetes mellitus type 2", "E11.9"),
  ("diabetes mellitus type 1", "E10.9"),
  ("hypothyroidism", "E03.9"),
  ("hyperthyroidism", "E05.9"),
  ("obesity", "E66.9"),
  ("headache", "R51.9"),
  ("migraine", "G43.909"),
  ("seizures", "R56.9"),
  ("epilepsy", "G40.909"),
  ("stroke", "I63.9"),
  ("transient ischemic attack", "G93.1"),
  ("dizziness", "R42"),
  ("vertigo", "R42"),
  ("back pain", "M54.9"),
  ("joint pain", "M25.9"),
  ("arthralgia", "M25.9"),
  ("osteoarthritis", "M19.90"),
  ("rheumatoid arthritis", "M06.9"),
  ("osteoporosis", "M81.0"),
  ("depression", "F32.9"),
  ("anxiety", "F41.9"),
  ("bipolar disorder", "F31.9"),
  ("urinary tract infection", "N39.0"),
  ("acute kidney injury", "N17.9"),
  ("chronic kidney disease", "N18.9"),
  ("anemia", "D64.9"),
  ("iron deficiency anemia", "D50.9"),
  ("fatigue", "R53.83"),
  ("fever", "R50.9"),
  ("weight loss", "R63.4"),
  ("malaise", "R53.1"),
  ("syncope", "R55")]

/-- JS object property read `icd10Codes[key]`. -/
def icd10Lookup (key : String) : Option String :=
  (icd10Codes.find? (fun p => p.1 = key)).map Prod.snd

end MedicalTerms

/-! ## MedicalInfoExtractor -/

/-- `demographics` sub-record. -/
structure Demographics where
  age : Option Nat
  gender : Option String
  race : Option String
deriving Repr, DecidableEq

/-- Age pattern 1: `/(\d+)[\s-]?year[\s-]?old/i` at one position. -/
def ageYearOldAt (l : List Char) : Option (List Char) :=
  let d := l.takeWhile isDigitChar
  if d = [] then none
  else
    let sep? : List Char → (List Char → Option (List Char)) → Option (List Char) :=
      fun r k =>
        match r with
        | c :: cs =>
          if isJsWs c ∨ c = '-' then
            match k cs with
            | some x => some x
            | none => k (c :: cs)
          else k (c :: cs)
        | [] => k []
    sep? (l.drop d.length) (fun r2 =>
      match matchLitCI "year".data r2 with
      | some r3 =>
        sep? r3 (fun r4 =>
          match matchLitCI "old".data r4 with
          | some _ => some d
          | none => none)
      | none => none)

/-- Age pattern 3: `/(\d+)\s*yo/i` at one position (`kw = "yo"`), also used
for pattern 4 `/(\d+)\s*y\.?o\.?/i` via `yDotO`. -/
def ageNumKwAt (kw : String) (l : List Char) : Option (List Char) :=
  let d := l.takeWhile isDigitChar
  if d = [] then none
  else
    let r := (l.drop d.length).dropWhile isJsWs
    match matchLitCI kw.data r with
    | some _ => some d
    | none => none

/-- `y\.?o\.?` of age pattern 4 (the trailing `\.?` always matches). -/
def yDotO (r : List Char) : Option Unit :=
  match r with
  | 'y' :: '.' :: 'o' :: _ => some ()
  | 'y' :: 'o' :: _ => some ()
  | 'Y' :: '.' :: rest | 'Y' :: rest =>
    match rest with
    | 'o' :: _ => some ()
    | 'O' :: _ => some ()
    | _ => none
  | 'y' :: '.' :: 'O' :: _ => some ()
  | 'y' :: 'O' :: _ => some ()
  | _ => none

/-- Age pattern 4: `/(\d+)\s*y\.?o\.?/i` at one position. -/
def ageYoDotAt (l : List Char) : Option (List Char) :=
  let d := l.takeWhile isDigitChar
  if d = [] then none
  else
    let r := (l.drop d.length).dropWhile isJsWs
    match yDotO r with
    | some _ => some d
    | none => none

/-- Digit characters to the number `parseInt` yields on them. -/
def parseDigits (d : List Char) : Nat :=
  d.foldl (fun n c => n * 10 + (c.toNat - '0'.toNat)) 0

/-- A `\b`-delimited alternative of the gender regexes: literal `w`
optionally followed by `\.?` (for `mr`, `ms`, `mrs`), then `\b`. -/
def testGenderAlt (w : String) (optDot : Bool) (text : String) : Bool :=
  (scanFirst (fun prev l =>
    if isBoundary prev l.head? then
      match matchLitCITrack none w.data l with
      | some (lastc, rest) =>
        let dotCase : Bool := optDot &&
          match rest with
          | '.' :: r2 => isBoundary (some '.') r2.head?
          | _ => false
        if dotCase || isBoundary lastc rest.head? then some () else none
      | none => none
    else none) text.data).isSome

/-- `/\b(male|man|gentleman|mr\.?|he|his|him)\b/i`. -/
def testMalePatterns (text : String) : Bool :=
  [("male", false), ("man", false), ("gentleman", false), ("mr", true),
   ("he", false), ("his", false), ("him", false)].any
    (fun p => testGenderAlt p.1 p.2 text)

/-- `/\b(female|woman|lady|ms\.?|mrs\.?|she|her|hers)\b/i`. -/
def testFemalePatterns (text : String) : Bool :=
  [("female", false), ("woman", false), ("lady", false), ("ms", true),
   ("mrs", true), ("she", false), ("her", false), ("hers", false)].any
    (fun p => testGenderAlt p.1 p.2 text)

/-- `extractDemographics`: first matching age pattern (in the fixed order),
male patterns checked before female; `race` is never populated. -/
def extractDemographics (text : String) : Demographics :=
  let agePatterns : List (List Char → Option (List Char)) :=
    [ageYearOldAt,
     fun l => altCont ["age"] intTail l,
     ageNumKwAt "yo",
     ageYoDotAt]
  let age := (agePatterns.firstM (fun p => scanFirst (fun _ => p) text.data)).map parseDigits
  let gender :=
    if testMalePatterns text then some "male"
    else if testFemalePatterns text then some "female"
    else none
  { age := age, gender := gender, race := none }

/-- One-position matcher for chief-complaint pattern 4,
`/patient.*?(?:presents|complains of|reports)[:\s]*(.*?)(?:\n|\.)/i`:
after the literal `patient` the lazy gap grows one (non-newline) character
at a time; at each point the verb alternatives are tried in order, each
continued by the labelled tail. -/
def ccGap : List Char → Option (List Char)
  | [] =>
    match altCont ["presents", "complains of", "reports"] tailCapture [] with
    | some p => some p.2
    | none => none
  | c :: rest =>
    match altCont ["presents", "complains of", "reports"] tailCapture (c :: rest) with
    | some p => some p.2
    | none => if c = '\n' then none else ccGap rest

/-- Chief-complaint pattern 4 at one position. -/
def ccPresentsAt (l : List Char) : Option (List Char) :=
  match matchLitCI "patient".data l with
  | some r => ccGap r
  | none => none

/-- `extractSymptoms`: dictionary scan over `medicalTerms.complaints`,
word-boundary test per term, then `[...new Set(...)]`. -/
def extractSymptoms (text : String) : List String :=
  dedupFirst (MedicalTerms.complaints.filter (fun t => testTerm t text))

/-- `extractConditions`. -/
def extractConditions (text : String) : List String :=
  dedupFirst (MedicalTerms.conditions.filter (fun t => testTerm t text))

/-- `extractProcedures`. -/
def extractProcedures (text : String) : List String :=
  dedupFirst (MedicalTerms.procedures.filter (fun t => testTerm t text))

/-- `extractChiefComplaint`: four labelled patterns in priority order
(first nonempty capture wins, trimmed), then the first extracted symptom,
then the fixed placeholder. -/
def extractChiefComplaint (text : String) : String :=
  let caps : List (Option String) :=
    [(findLabeled ["chief complaint"] text).map Prod.snd,
     (findLabeled ["presenting complaint"] text).map Prod.snd,
     (findLabeled ["cc"] text).map Prod.snd,
     (scanFirst (fun _ => ccPresentsAt) text.data).map (fun c => ⟨c⟩)]
  match caps.firstM (fun c => match c with
    | some s => if s ≠ "" then some s else none
    | none => none) with
  | some s => jsTrim s
  | none =>
    match extractSymptoms text with
    | s :: _ => s
    | [] => "General medical evaluation"

/-- The dosage capture
`new RegExp(medication + '\\s*([\\d\\.]+\\s*(?:mg|mcg|g|units?)?)', 'i')`
at one position: medication literal, greedy `\s*`, the `[\d.]+` number,
then greedily `\s*` and an optional unit — all three pieces belong to the
capture group. -/
def dosageAt (med : List Char) (l : List Char) : Option (List Char) :=
  match matchLitCI med l with
  | none => none
  | some r1 =>
    let r2 := r1.dropWhile isJsWs
    let num := r2.takeWhile (fun c => isDigitChar c ∨ c = '.')
    if num = [] then none
    else
      let r3 := r2.drop num.length
      let sp := r3.takeWhile isJsWs
      let r4 := r3.drop sp.length
      let unitLen : Nat :=
        if (matchLitCI "mg".data r4).isSome then 2
        else if (matchLitCI "mcg".data r4).isSome then 3
        else if (matchLitCI "g".data r4).isSome then 1
        else if (matchLitCI "units".data r4).isSome then 5
        else if (matchLitCI "unit".data r4).isSome then 4
        else 0
      some (num ++ sp ++ r4.take unitLen)

/-- Leftmost dosage capture for a medication over the whole text. -/
def dosageCapture (med : String) (text : String) : Option String :=
  (scanFirst (fun _ l => dosageAt med.data l) text.data).map (fun c => ⟨c⟩)

/-- The string pushed for a detected medication: the dosage capture is
appended when present (`` `${medication} ${dosageMatch[1]}` ``), otherwise
the bare name. -/
def composeMedication (text : String) (med : String) : String :=
  match dosageCapture med text with
  | some d => med ++ " " ++ d
  | none => med

/-- `extractMedications`. -/
def extractMedications (text : String) : List String :=
  dedupFirst ((MedicalTerms.medications.filter (fun m => testWordLit m text)).map
    (composeMedication text))

/-- `vitals` sub-record (a JS object whose keys are set independently). -/
structure Vitals where
  bloodPressure : Option String
  heartRate : Option String
  temperature : Option String
  respiratoryRate : Option String
  oxygenSaturation : Option String
deriving Repr, DecidableEq

/-- `extractVitals`: five independent labelled-value regexes; `null` when
no field matched. -/
def extractVitals (text : String) : Option Vitals :=
  let bp := (scanFirst (fun _ => altCont ["bp", "blood pressure"] bpTail) text.data).map
    (fun p => (⟨p.1⟩ : String) ++ "/" ++ ⟨p.2⟩)
  let hr := (scanFirst (fun _ => altCont ["hr", "heart rate", "pulse"] intTail) text.data).map
    (fun d => (⟨d⟩ : String))
  let temp := (scanFirst (fun _ => altCont ["temp", "temperature"] decTail) text.data).map
    (fun d => (⟨d⟩ : String))
  let rr := (scanFirst (fun _ => altCont ["rr", "respiratory rate", "resp"] intTail) text.data).map
    (fun d => (⟨d⟩ : String))
  let o2 := (scanFirst (fun _ => altCont ["o2", "oxygen", "sat", "spo2"] intTail) text.data).map
    (fun d => (⟨d⟩ : String) ++ "%")
  if bp = none ∧ hr = none ∧ temp = none ∧ rr = none ∧ o2 = none then none
  else some ⟨bp, hr, temp, rr, o2⟩

/-- The eleven lab patterns of `extractLabs`, in `Object.keys` insertion
order; each is a label alternation with an integer or decimal capture. -/
def labPatterns : List (String × (String → Option String)) :=
  let run : List String → (List Char → Option (List Char)) → String → Option String :=
    fun alts tl text => (scanFirst (fun _ => altCont alts tl) text.data).map (fun d => ⟨d⟩)
  [("glucose", run ["glucose", "blood sugar"] intTail),
   ("hemoglobin", run ["hemoglobin", "hgb", "hb"] decTail),
   ("hematocrit", run ["hematocrit", "hct"] decTail),
   ("creatinine", run ["creatinine"] decTail),
   ("bun", run ["bun"] intTail),
   ("sodium", run ["sodium", "na"] intTail),
   ("potassium", run ["potassium", "k"] decTail),
   ("chloride", run ["chloride", "cl"] intTail),
   ("co2", run ["co2"] intTail),
   ("wbc", run ["wbc", "white blood cell"] decTail),
   ("platelets", run ["platelets"] intTail)]

/-- `extractLabs`: `null` when no pattern matched, otherwise the matched
`(name, value)` pairs in pattern order. -/
def extractLabs (text : String) : Option (List (String × String)) :=
  let labs := labPatterns.filterMap (fun p => (p.2 text).map (fun v => (p.1, v)))
  if labs = [] then none else some labs

/-- `extractImaging`: six modality patterns, every nonempty capture is
trimmed and collected; `null` when none. -/
def extractImaging (text : String) : Option (List String) :=
  let pats : List (List String) :=
    [["chest x-ray", "cxr"], ["ct scan", "computed tomography"],
     ["mri", "magnetic resonance"], ["ultrasound", "us"],
     ["echocardiogram", "echo"], ["ekg", "ecg", "electrocardiogram"]]
  let finds := pats.filterMap (fun alts =>
    match findLabeled alts text with
    | some (_, cap) => if cap ≠ "" then some (jsTrim cap) else none
    | none => none)
  if finds = [] then none else some finds

/-- The `nkda|no known drug allergies` pattern: leftmost alternative
match, returning `match[0]` (as text characters). -/
def findNkda (text : String) : Option String :=
  (scanFirst (fun _ l =>
    match matchLitCI "nkda".data l with
    | some _ => some (l.take 4)
    | none =>
      match matchLitCI "no known drug allergies".data l with
      | some _ => some (l.take 23)
      | none => none) text.data).map (fun c => ⟨c⟩)

/-- `match[0].toLowerCase().includes('nkda') || … .includes('no known')`. -/
def nkdaMarker (m0 : String) : Bool :=
  jsIncludes (toLowerString m0) "nkda" ∨ jsIncludes (toLowerString m0) "no known"

/-- `extractAllergies`: the three patterns are tried in source order —
the labelled `allergies?:` and `allergic to:` patterns first, the bare
`nkda|no known drug allergies` pattern last.  For the first pattern that
matches, the whole match is inspected for the `nkda`/`no known` markers
(short-circuiting to the fixed string); otherwise a nonempty capture is
trimmed and returned; an empty capture falls through to the next
pattern. -/
def extractAllergies (text : String) : Option String :=
  match findLabeled ["allergies", "allergie"] text with
  | some (m0, cap) =>
    if nkdaMarker m0 then some "NKDA (No Known Drug Allergies)"
    else if cap ≠ "" then some (jsTrim cap)
    else extractAllergiesP2 text
  | none => extractAllergiesP2 text
where
  /-- Patterns 2 and 3 of `extractAllergies`. -/
  extractAllergiesP2 (text : String) : Option String :=
    match findLabeled ["allergic to"] text with
    | some (m0, cap) =>
      if nkdaMarker m0 then some "NKDA (No Known Drug Allergies)"
      else if cap ≠ "" then some (jsTrim cap)
      else extractAllergiesP3 text
    | none => extractAllergiesP3 text
  /-- Pattern 3 of `extractAllergies`. -/
  extractAllergiesP3 (text : String) : Option String :=
    match findNkda text with
    | some m0 =>
      if nkdaMarker m0 then some "NKDA (No Known Drug Allergies)" else none
    | none => none

/-- `extractSocialHistory`: all four labelled patterns collected (nonempty
captures, trimmed), joined with `'; '`; `null` when none. -/
def extractSocialHistory (text : String) : Option String :=
  let finds := [["social history"], ["smoking"], ["alcohol"], ["tobacco"]].filterMap
    (fun alts =>
      match findLabeled alts text with
      | some (_, cap) => if cap ≠ "" then some (jsTrim cap) else none
      | none => none)
  if finds = [] then none else some (jsJoin "; " finds)

/-- `extractFamilyHistory`: first pattern with a nonempty capture wins. -/
def extractFamilyHistory (text : String) : Option String :=
  match [["family history"], ["fh"]].firstM (fun alts =>
    match findLabeled alts text with
    | some (_, cap) => if cap ≠ "" then some cap else none
    | none => none) with
  | some cap => some (jsTrim cap)
  | none => none

/-- `extractReviewOfSystems`: three patterns collected; `null` when
none. -/
def extractReviewOfSystems (text : String) : Option (List String) :=
  let finds := [["review of systems"], ["ros"],
    ["patient reports", "patient denies", "patient admits to"]].filterMap
    (fun alts =>
      match findLabeled alts text with
      | some (_, cap) => if cap ≠ "" then some (jsTrim cap) else none
      | none => none)
  if finds = [] then none else some finds

/-- `extractPhysicalExam`: four patterns collected; `null` when none. -/
def extractPhysicalExam (text : String) : Option (List String) :=
  let finds := [["physical exam"], ["examination"], ["on exam"], ["appears"]].filterMap
    (fun alts =>
      match findLabeled alts text with
      | some (_, cap) => if cap ≠ "" then some (jsTrim cap) else none
      | none => none)
  if finds = [] then none else some finds

/-- The unit alternation `(?:days?|weeks?|months?|years?)` flattened in JS
backtracking order. -/
def timeUnits : List String :=
  ["days", "day", "weeks", "week", "months", "month", "years", "year"]

/-- Timeline pattern 1 `/(\d+)\s*(?:days?|weeks?|months?|years?)\s*(?:ago|prior)/i`
at one position; returns `match[0]`. -/
def timelineAgoAt (l : List Char) : Option (List Char) :=
  let d := l.takeWhile isDigitChar
  if d = [] then none
  else
    let r1 := l.drop d.length
    let ws1 := r1.takeWhile isJsWs
    let r2 := r1.drop ws1.length
    match altContLen timeUnits (fun r3 =>
      let ws2 := r3.takeWhile isJsWs
      let r4 := r3.drop ws2.length
      match matchLitCI "ago".data r4 with
      | some _ => some (ws2 ++ r4.take 3)
      | none =>
        match matchLitCI "prior".data r4 with
        | some _ => some (ws2 ++ r4.take 5)
        | none => none) r2 with
    | some (ulen, tl) => some (d ++ ws1 ++ r2.take ulen ++ tl)
    | none => none

/-- Timeline patterns 2 and 3,
`/since\s*(\d+)\s*(?:days?|weeks?|months?|years?)/i` (`kw = "since"`) and
the same with `for`; returns `match[0]`. -/
def timelineKwAt (kw : String) (l : List Char) : Option (List Char) :=
  match matchLitCI kw.data l with
  | none => none
  | some r1 =>
    let ws1 := r1.takeWhile isJsWs
    let r2 := r1.drop ws1.length
    let d := r2.takeWhile isDigitChar
    if d = [] then none
    else
      let r3 := r2.drop d.length
      let ws2 := r3.takeWhile isJsWs
      let r4 := r3.drop ws2.length
      match altContLen timeUnits (fun _ => some ()) r4 with
      | some (ulen, _) => some (l.take kw.length ++ ws1 ++ d ++ ws2 ++ r4.take ulen)
      | none => none

/-- `extractTimeline`: the three patterns' first matches (`matches[0]`)
collected; `null` when none. -/
def extractTimeline (text : String) : Option (List String) :=
  let tl := [scanFirst (fun _ => timelineAgoAt) text.data,
             scanFirst (fun _ => timelineKwAt "since") text.data,
             scanFirst (fun _ => timelineKwAt "for") text.data].filterMap
    (fun o => o.map (fun c => (⟨c⟩ : String)))
  if tl = [] then none else some tl

/-- The extraction-stage record built by `extractMedicalInfo`. -/
structure MedicalInfo where
  demographics : Demographics
  chiefComplaint : String
  symptoms : List String
  conditions : List String
  medications : List String
  procedures : List String
  vitals : Option Vitals
  labs : Option (List (String × String))
  imaging : Option (List String)
  allergies : Option String
  socialHistory : Option String
  familyHistory : Option String
  reviewOfSystems : Option (List String)
  physicalExam : Option (List String)
  timeline : Option (List String)
deriving Repr, DecidableEq

/-- `extractMedicalInfo`: the sub-extractors applied to the original or
lower-cased text exactly as in the source. -/
def extractMedicalInfo (text : String) : MedicalInfo :=
  let lowerText := toLowerString text
  { demographics := extractDemographics text
    chiefComplaint := extractChiefComplaint lowerText
    symptoms := extractSymptoms lowerText
    conditions := extractConditions lowerText
    medications := extractMedications lowerText
    procedures := extractProcedures lowerText
    vitals := extractVitals text
    labs := extractLabs text
    imaging := extractImaging text
    allergies := extractAllergies text
    socialHistory := extractSocialHistory text
    familyHistory := extractFamilyHistory text
    reviewOfSystems := extractReviewOfSystems lowerText
    physicalExam := extractPhysicalExam text
    timeline := extractTimeline text }

/-! ## ClinicalReasoner: `enhanceMedicalInfo` and its helpers -/

/-- The generation options record; absent `outputFormat`/`detailLevel` are
modelled as the empty string (both are falsy in JS). -/
structure GenOptions where
  outputFormat : String
  detailLevel : String
  includeICD10 : Bool
  includeMedications : Bool
deriving Repr, DecidableEq

/-- The `assessmentPlan` buckets. -/
structure AssessmentPlan where
  diagnostic : List String
  therapeutic : List String
  monitoring : List String
  followUp : List String
deriving Repr, DecidableEq

/-- The enriched record: the extraction-stage fields (possibly with the
chief complaint rewritten) plus the three fields added by enrichment. -/
structure EnhancedInfo extends MedicalInfo where
  clinicalContext : String
  differentialDiagnosis : List String
  assessmentPlan : AssessmentPlan
deriving Repr, DecidableEq

/-- `generateClinicalContext` (note the JS truthiness test on `age`: `0`
is falsy and skips the age clause). -/
def generateClinicalContext (info : MedicalInfo) : String :=
  let ageCtx : List String :=
    match info.demographics.age with
    | some a =>
      if a ≠ 0 then
        if a < 18 then ["pediatric patient"]
        else if a > 65 then ["elderly patient"]
        else []
      else []
    | none => []
  let condCtx := if info.conditions ≠ [] then ["known " ++ jsJoin ", " info.conditions] else []
  let medCtx := if info.medications ≠ [] then ["on current medications"] else []
  jsJoin " with " (ageCtx ++ condCtx ++ medCtx)

/-- `generateDifferentialDiagnosis`: substring rules on the chief
complaint, the diabetes/fatigue rule per condition, then `[...new Set]`. -/
def generateDifferentialDiagnosis (info : MedicalInfo) : List String :=
  dedupFirst (
    (if jsIncludes info.chiefComplaint "chest pain" then
      ["acute coronary syndrome", "pulmonary embolism", "costochondritis",
       "gastroesophageal reflux"] else []) ++
    (if jsIncludes info.chiefComplaint "shortness of breath" then
      ["heart failure", "pulmonary embolism", "pneumonia", "asthma exacerbation"] else []) ++
    (if jsIncludes info.chiefComplaint "abdominal pain" then
      ["appendicitis", "cholecystitis", "peptic ulcer disease", "bowel obstruction"] else []) ++
    info.conditions.flatMap (fun c =>
      if jsIncludes c "diabetes" && info.symptoms.contains "fatigue" then
        ["diabetic ketoacidosis", "hypoglycemia"] else []))

/-- `generateAssessmentPlan` (the options argument is unused by the
source body). -/
def generateAssessmentPlan (info : MedicalInfo) (_opts : GenOptions) : AssessmentPlan :=
  { diagnostic :=
      (if info.symptoms.contains "chest pain" then
        ["EKG", "chest X-ray", "cardiac enzymes"] else []) ++
      (if info.symptoms.contains "shortness of breath" then
        ["chest X-ray", "BNP", "arterial blood gas"] else [])
    therapeutic :=
      if info.conditions.contains "hypertension" then
        ["continue antihypertensive therapy", "lifestyle modifications"] else []
    monitoring :=
      if info.conditions.contains "diabetes mellitus" then
        ["hemoglobin A1c", "glucose monitoring"] else []
    followUp := ["return in 1-2 weeks or sooner if symptoms worsen"] }

/-- `enhanceMedicalInfo`: rewrite a falsy or placeholder chief complaint
to the first symptom (when any), then add the three enrichment fields
(each computed from the record after that rewrite, as the source mutates
in place). -/
def enhanceMedicalInfo (info : MedicalInfo) (opts : GenOptions) : EnhancedInfo :=
  let info1 :=
    if (info.chiefComplaint = "" ∨ info.chiefComplaint = "General medical evaluation")
        ∧ info.symptoms ≠ [] then
      { info with chiefComplaint := info.symptoms.headI }
    else info
  { toMedicalInfo := info1
    clinicalContext := generateClinicalContext info1
    differentialDiagnosis := generateDifferentialDiagnosis info1
    assessmentPlan := generateAssessmentPlan info1 opts }

/-! ## ReportRenderer helpers -/

/-- `capitalizeFirst`. -/
def capitalizeFirst (str : String) : String :=
  match str.data with
  | [] => ""
  | c :: cs => ⟨upperChar c :: cs⟩

/-- The JS `x || default` pattern on a nullable string field (both `null`
and the empty string are falsy). -/
def jsOr : Option String → String → String
  | some s, d => if s = "" then d else s
  | none, d => d

/-- `getTimeFrame`. -/
def getTimeFrame (info : EnhancedInfo) : String :=
  match info.timeline with
  | some (t :: _) => t
  | _ => "an undetermined duration"

/-- `getLocation`. -/
def getLocation (info : EnhancedInfo) : String :=
  if jsIncludes info.chiefComplaint "chest" then "chest"
  else if jsIncludes info.chiefComplaint "abdominal" then "abdomen"
  else if jsIncludes info.chiefComplaint "head" then "head"
  else if jsIncludes info.chiefComplaint "back" then "back"
  else "to be determined"

/-- `getDuration`. -/
def getDuration (info : EnhancedInfo) : String := getTimeFrame info

/-- `getCharacter`. -/
def getCharacter (info : EnhancedInfo) : String :=
  if jsIncludes info.chiefComplaint "pain" then
    "character to be described (sharp, dull, aching, burning, etc.)"
  else "quality to be characterized during assessment"

/-- `getTiming`. -/
def getTiming (_info : EnhancedInfo) : String :=
  "timing pattern to be established during clinical interview"

/-- `generateSeverityQuality`. -/
def generateSeverityQuality (info : EnhancedInfo) : String :=
  if jsIncludes info.chiefComplaint "pain" then
    "Pain severity and quality to be assessed using appropriate pain scales."
  else "Symptom severity and characteristics to be evaluated during clinical assessment."

/-- `generateHPI`: the conditionally pushed sentences joined with a
space. -/
def generateHPI (info : EnhancedInfo) (_opts : GenOptions) : String :=
  jsJoin " " (
    ["Patient reports " ++ info.chiefComplaint ++ " that has been present for " ++
      getTimeFrame info ++ "."] ++
    (if info.symptoms.length > 1 then
      ["Associated symptoms include " ++ jsJoin ", " (info.symptoms.drop 1) ++ "."] else []) ++
    [generateSeverityQuality info,
     "Precipitating and alleviating factors to be determined during clinical assessment."] ++
    (match info.timeline with
     | some tl => ["Timeline: " ++ jsJoin ", " tl ++ "."]
     | none => []))

/-- `generatePMH`: one bullet per condition with its diagnostic code taken
from the table unconditionally (no `includeICD10` gate in the source). -/
def generatePMH (info : EnhancedInfo) : String :=
  if info.conditions = [] then "• No significant past medical history documented"
  else
    jsJoin "\n" (info.conditions.map (fun condition =>
      let icd10 := (MedicalTerms.icd10Lookup condition).getD "ICD-10: To be determined"
      "• " ++ capitalizeFirst condition ++ " (" ++ icd10 ++ ")"))

/-- `generateMedicationList`. -/
def generateMedicationList (info : EnhancedInfo) (opts : GenOptions) : String :=
  if !opts.includeMedications ∨ info.medications = [] then
    "• No medications documented or medication reconciliation needed"
  else jsJoin "\n" (info.medications.map (fun med => "• " ++ capitalizeFirst med))

/-- `generateROS`. -/
def generateROS (info : EnhancedInfo) : String :=
  match info.reviewOfSystems with
  | some ros =>
    if ros ≠ [] then
      jsJoin "; " ros ++ "\nComplete review of systems to be obtained during clinical encounter."
    else "Complete review of systems to be obtained during clinical encounter."
  | none => "Complete review of systems to be obtained during clinical encounter."

/-- `generatePhysicalExam` (the renderer; distinct from the extractor). -/
def generatePhysicalExam (info : EnhancedInfo) : String :=
  match info.physicalExam with
  | some pe =>
    if pe ≠ [] then
      jsJoin "; " pe ++ "\nComplete physical examination to be performed during clinical encounter."
    else "Complete physical examination to be performed during clinical encounter."
  | none => "Complete physical examination to be performed during clinical encounter."

/-- `formatVitals` (each field is pushed only when truthy; the joined
string itself falls back when empty). -/
def formatVitals (vitals : Option Vitals) : String :=
  match vitals with
  | none => "Vital signs to be obtained during clinical encounter"
  | some v =>
    let add : Option String → (String → String) → List String := fun o f =>
      match o with
      | some s => if s = "" then [] else [f s]
      | none => []
    let vitalStrings :=
      add v.bloodPressure (fun s => "BP: " ++ s ++ " mmHg") ++
      add v.heartRate (fun s => "HR: " ++ s ++ " bpm") ++
      add v.temperature (fun s => "Temp: " ++ s ++ "°F") ++
      add v.respiratoryRate (fun s => "RR: " ++ s ++ "/min") ++
      add v.oxygenSaturation (fun s => "O2 Sat: " ++ s)
    let j := jsJoin ", " vitalStrings
    if j = "" then "Stable, within normal limits" else j

/-- `formatLabs`. -/
def formatLabs (labs : Option (List (String × String))) : String :=
  match labs with
  | none => "Laboratory studies to be obtained as clinically indicated"
  | some l => jsJoin ", " (l.map (fun p => p.1 ++ ": " ++ p.2))

/-- `formatImaging`. -/
def formatImaging (imaging : Option (List String)) : String :=
  match imaging with
  | some img =>
    if img = [] then "Imaging studies to be obtained as clinically indicated"
    else jsJoin "; " img
  | none => "Imaging studies to be obtained as clinically indicated"

/-- `formatDemographics` (JS truthiness: a zero age and empty strings are
skipped). -/
def formatDemographics (d : Demographics) : String :=
  let parts :=
    (match d.age with
     | some a => if a ≠ 0 then ["Age: " ++ toString a ++ " years old"] else []
     | none => []) ++
    (match d.gender with
     | some g => if g ≠ "" then ["Gender: " ++ capitalizeFirst g] else []
     | none => []) ++
    (match d.race with
     | some r => if r ≠ "" then ["Race: " ++ capitalizeFirst r] else []
     | none => [])
  let j := jsJoin ", " parts
  if j = "" then "Demographics to be obtained" else j

/-- `getICD10` (used by the structured template; gated on the flag, with
a lower-cased lookup). -/
def getICD10 (condition : String) (opts : GenOptions) : String :=
  if !opts.includeICD10 then ""
  else
    match MedicalTerms.icd10Lookup (toLowerString condition) with
    | some code => "(" ++ code ++ ")"
    | none => "(ICD-10: TBD)"

/-- `generateAssessment`: numbered diagnoses (codes only with
`includeICD10`), numbered symptoms, numbered differentials. -/
def generateAssessment (info : EnhancedInfo) (opts : GenOptions) : String :=
  let part1 := "PRIMARY DIAGNOSES:\n" ++
    (if info.conditions ≠ [] then
      String.join (info.conditions.enum.map (fun p =>
        let icd10 := if opts.includeICD10 then
            " (" ++ ((MedicalTerms.icd10Lookup p.2).getD "ICD-10: To be determined") ++ ")"
          else ""
        toString (p.1 + 1) ++ ". " ++ capitalizeFirst p.2 ++ icd10 ++ "\n"))
    else "1. Working diagnosis pending comprehensive clinical evaluation\n")
  let part2 :=
    if info.symptoms ≠ [] then
      "\nSYMPTOMS FOR EVALUATION:\n" ++
      String.join (info.symptoms.enum.map (fun p =>
        let icd10 := if opts.includeICD10 then
            " (" ++ ((MedicalTerms.icd10Lookup p.2).getD "R69 - Illness, unspecified") ++ ")"
          else ""
        toString (p.1 + 1) ++ ". " ++ capitalizeFirst p.2 ++ icd10 ++ "\n"))
    else ""
  let part3 :=
    if info.differentialDiagnosis ≠ [] then
      "\nDIFFERENTIAL DIAGNOSIS:\n" ++
      String.join (info.differentialDiagnosis.enum.map (fun p =>
        toString (p.1 + 1) ++ ". " ++ capitalizeFirst p.2 ++ "\n"))
    else ""
  part1 ++ part2 ++ part3

/-- `generatePlan`: the four plan sections with their fixed fallbacks,
joined by newlines. -/
def generatePlan (info : EnhancedInfo) (_opts : GenOptions) : String :=
  let ap := info.assessmentPlan
  let diag :=
    if ap.diagnostic ≠ [] then
      ["DIAGNOSTIC:"] ++ ap.diagnostic.enum.map (fun p => toString (p.1 + 1) ++ ". " ++ p.2) ++ [""]
    else []
  let ther := ["THERAPEUTIC:"] ++
    (if ap.therapeutic ≠ [] then
      ap.therapeutic.enum.map (fun p => toString (p.1 + 1) ++ ". " ++ p.2)
    else
      ["1. Continue current medications as prescribed with regular monitoring",
       "2. Lifestyle modifications as appropriate"]) ++ [""]
  let mon := ["MONITORING:"] ++
    (if ap.monitoring ≠ [] then
      ap.monitoring.enum.map (fun p => toString (p.1 + 1) ++ ". " ++ p.2)
    else
      ["1. Regular clinical assessment and vital signs monitoring",
       "2. Laboratory studies as clinically indicated"]) ++ [""]
  let fu := ["FOLLOW-UP:"] ++
    (if ap.followUp ≠ [] then
      ap.followUp.enum.map (fun p => toString (p.1 + 1) ++ ". " ++ capitalizeFirst p.2)
    else
      ["1. Clinical reassessment in 1-2 weeks or sooner if symptoms worsen",
       "2. Patient education provided regarding condition management",
       "3. Return precautions discussed"])
  jsJoin "\n" (diag ++ ther ++ mon ++ fu)

/-- `generatePatientIntroduction`. -/
def generatePatientIntroduction (info : EnhancedInfo) : String :=
  let demo := info.demographics
  let ageT : Bool := match demo.age with | some a => a ≠ 0 | none => false
  let genT : Bool := match demo.gender with | some g => g ≠ "" | none => false
  let intro := "This patient is " ++
    (if ageT && genT then
      "a " ++ toString (demo.age.getD 0) ++ "-year-old " ++ demo.gender.getD ""
    else if ageT then "a " ++ toString (demo.age.getD 0) ++ "-year-old individual"
    else if genT then "a " ++ demo.gender.getD "" ++ " patient"
    else "an individual")
  intro ++
    (if info.conditions ≠ [] then
      " with a medical history significant for " ++ jsJoin ", " info.conditions ++ "."
    else " with no significant documented past medical history.")

/-- `generateNarrativeHPI`. -/
def generateNarrativeHPI (info : EnhancedInfo) : String :=
  let sy := jsJoin ", " info.symptoms
  let co := jsJoin ", " info.conditions
  "The clinical presentation involves " ++
  (if sy = "" then "symptoms requiring evaluation" else sy) ++
  " in the context of " ++
  (if co = "" then "the patient's medical history" else co) ++
  ". Detailed assessment and clinical correlation are indicated to establish the etiology and guide appropriate management."

/-- `formatMedicationsNarrative`. -/
def formatMedicationsNarrative (medications : List String) : String :=
  match medications with
  | [] => "no documented medications"
  | [m] => m
  | [m1, m2] => m1 ++ " and " ++ m2
  | _ => jsJoin ", " medications.dropLast ++ ", and " ++ (medications.getLast?.getD "")

/-- `generateMedicalHistoryNarrative`. -/
def generateMedicalHistoryNarrative (info : EnhancedInfo) : String :=
  if info.conditions = [] then
    "The patient has no significant documented past medical history at this time."
  else
    "The patient has a significant medical history including " ++
    jsJoin ", " info.conditions ++
    ". These conditions require ongoing management and clinical monitoring, and may be relevant to the current clinical presentation."

/-- `generateCurrentStatusNarrative`. -/
def generateCurrentStatusNarrative (info : EnhancedInfo) : String :=
  let els :=
    (match info.vitals with
     | some v => ["Current vital signs: " ++ formatVitals (some v) ++ "."]
     | none => []) ++
    (match info.labs with
     | some l => ["Recent laboratory results show: " ++ formatLabs (some l) ++ "."]
     | none => []) ++
    (match info.imaging with
     | some im => ["Imaging studies demonstrate: " ++ formatImaging (some im) ++ "."]
     | none => [])
  if els = [] then
    "Current clinical status requires comprehensive assessment including vital signs, physical examination, and appropriate diagnostic studies."
  else jsJoin " " els

/-- `generateAssessmentAndPlanNarrative`. -/
def generateAssessmentAndPlanNarrative (info : EnhancedInfo) (_opts : GenOptions) : String :=
  let co := jsJoin ", " info.conditions
  "Based on the available clinical information, the patient requires comprehensive evaluation for " ++
  info.chiefComplaint ++ ". The clinical presentation in the context of " ++
  (if co = "" then "the patient's overall health status" else co) ++
  " warrants careful assessment and evidence-based management. Treatment decisions should incorporate current clinical guidelines, patient preferences, and individualized risk-benefit considerations."

/-- `generateFollowUpRecommendations`. -/
def generateFollowUpRecommendations (_info : EnhancedInfo) : String :=
  jsJoin " "
    ["Regular follow-up appointments should be scheduled based on clinical judgment and condition severity.",
     "Patient should be advised to seek immediate medical attention if symptoms worsen or new concerning features develop.",
     "Medication adherence and therapeutic response should be monitored at each visit.",
     "Lifestyle modifications and patient education should be reinforced during follow-up encounters."]

/-- `generateClinicalConsiderations`. -/
def generateClinicalConsiderations (info : EnhancedInfo) : String :=
  let cons :=
    (if info.conditions.length > 2 then
      ["Multi-morbidity considerations require coordinated care approach."] else []) ++
    (if info.medications.length > 5 then
      ["Polypharmacy assessment needed for drug interactions and optimization."] else []) ++
    (match info.demographics.age with
     | some a =>
       if a > 65 then
        ["Geriatric considerations include age-appropriate screening and functional assessment."]
       else []
     | none => [])
  jsJoin " "
    (if cons = [] then
      ["Standard clinical considerations apply for comprehensive patient care."]
    else cons)

/-- `generateStructuredHPI`. -/
def generateStructuredHPI (info : EnhancedInfo) : String :=
  let assoc := jsJoin ", " (info.symptoms.drop 1)
  let els :=
    ["Onset: " ++ getTimeFrame info,
     "Location: " ++ getLocation info,
     "Duration: " ++ getDuration info,
     "Character: " ++ getCharacter info,
     "Associated symptoms: " ++ (if assoc = "" then "None specifically noted" else assoc),
     "Timing: " ++ getTiming info,
     "Exacerbating factors: To be determined",
     "Relieving factors: To be determined",
     "Severity: To be assessed (1-10 scale)"]
  jsJoin "\n" (els.map (fun e => "   " ++ e))

/-- `generateStructuredROS`. -/
def generateStructuredROS (info : EnhancedInfo) : String :=
  match info.reviewOfSystems with
  | some ros =>
    if ros ≠ [] then
      "   Positive: " ++ jsJoin ", " ros ++ "\n   Negative: Complete ROS to be obtained"
    else "   Complete review of systems to be obtained during clinical encounter"
  | none => "   Complete review of systems to be obtained during clinical encounter"

/-- `generateStructuredPhysicalExam`. -/
def generateStructuredPhysicalExam (info : EnhancedInfo) : String :=
  match info.physicalExam with
  | some pe =>
    if pe ≠ [] then
      "   Findings: " ++ jsJoin ", " pe ++ "\n   Complete examination to be performed"
    else "   Complete physical examination to be performed during clinical encounter"
  | none => "   Complete physical examination to be performed during clinical encounter"

/-- `generateDiagnosticStudies`. -/
def generateDiagnosticStudies (info : EnhancedInfo) : String :=
  let studies :=
    (match info.labs with
     | some l => ["Laboratory: " ++ formatLabs (some l)]
     | none => []) ++
    (match info.imaging with
     | some im => ["Imaging: " ++ formatImaging (some im)]
     | none => []) ++
    (if info.procedures ≠ [] then ["Procedures: " ++ jsJoin ", " info.procedures] else [])
  if studies = [] then "   Diagnostic studies to be obtained as clinically indicated"
  else jsJoin "\n" (studies.map (fun s => "   " ++ s))

/-- `generateStructuredAssessment`. -/
def generateStructuredAssessment (info : EnhancedInfo) (opts : GenOptions) : String :=
  jsJoin "\n"
    (["   Clinical impression based on available information:"] ++
     (if info.conditions ≠ [] then
       ["   Established diagnoses:"] ++
       info.conditions.enum.map (fun p =>
         "     " ++ toString (p.1 + 1) ++ ". " ++ capitalizeFirst p.2 ++ " " ++ getICD10 p.2 opts)
     else []) ++
     (if info.symptoms ≠ [] then
       ["   Active symptoms requiring evaluation:"] ++
       info.symptoms.enum.map (fun p =>
         "     " ++ toString (p.1 + 1) ++ ". " ++ capitalizeFirst p.2)
     else []))

/-- `generateStructuredManagementPlan`. -/
def generateStructuredManagementPlan (_info : EnhancedInfo) (_opts : GenOptions) : String :=
  jsJoin "\n"
    ["   Comprehensive management approach:",
     "     1. Continue evidence-based treatment protocols",
     "     2. Monitor therapeutic response and adjust as needed",
     "     3. Address modifiable risk factors",
     "     4. Coordinate care with specialists as appropriate",
     "     5. Patient education and counseling"]

/-- `generateSOAPNote`: the SOAP template literal with its sixteen interpolations; the `moment()` timestamp is the explicit `timestamp` argument. -/
def generateSOAPNote (info : EnhancedInfo) (opts : GenOptions) (timestamp : String) : String :=
  "CLINICAL HISTORY - SOAP FORMAT\nGenerated: " ++
  (timestamp) ++
  "\nDetail Level: " ++
  (if opts.detailLevel = "" then "standard" else opts.detailLevel) ++
  "\nSource: AI-Generated from Medical Documentation\n\n" ++ "=======" ++ "=======" ++ "=======" ++ "=======" ++ "=======" ++ "=======" ++ "=======" ++ "=======" ++ "=======" ++ "=====" ++ "\n\nSUBJECTIVE:\n\nChief Complaint: " ++
  (capitalizeFirst info.chiefComplaint) ++
  "\n\nHistory of Present Illness:\n" ++
  (generateHPI info opts) ++
  "\n\nPast Medical History:\n" ++
  (generatePMH info) ++
  "\n\nMedications:\n" ++
  (generateMedicationList info opts) ++
  "\n\nAllergies:\n" ++
  (jsOr info.allergies "NKDA (No Known Drug Allergies)") ++
  "\n\nSocial History:\n" ++
  (jsOr info.socialHistory "To be obtained during clinical encounter") ++
  "\n\nFamily History:\n" ++
  (jsOr info.familyHistory "Non-contributory or to be obtained") ++
  "\n\nReview of Systems:\n" ++
  (generateROS info) ++
  "\n\nOBJECTIVE:\n\nVital Signs:\n" ++
  (formatVitals info.vitals) ++
  "\n\nPhysical Examination:\n" ++
  (generatePhysicalExam info) ++
  "\n\nLaboratory Results:\n" ++
  (formatLabs info.labs) ++
  "\n\nImaging Studies:\n" ++
  (formatImaging info.imaging) ++
  "\n\nASSESSMENT:\n" ++
  (generateAssessment info opts) ++
  "\n\nPLAN:\n" ++
  (generatePlan info opts) ++
  "\n\n" ++ "=======" ++ "=======" ++ "=======" ++ "=======" ++ "=======" ++ "=======" ++ "=======" ++ "=======" ++ "=======" ++ "=====" ++ "\nGenerated by Clinical History AI Agent\nNote: This is an AI-generated summary. Please verify all clinical information\nand correlate with direct patient assessment before making medical decisions.\n" ++ "=======" ++ "=======" ++ "=======" ++ "=======" ++ "=======" ++ "=======" ++ "=======" ++ "=======" ++ "=======" ++ "====="

/-- `generateNarrativeHistory`: the narrative template literal; the conditional medication block renders as the empty string when disabled. -/
def generateNarrativeHistory (info : EnhancedInfo) (opts : GenOptions) (timestamp : String) : String :=
  "CLINICAL HISTORY - NARRATIVE FORMAT\nGenerated: " ++
  (timestamp) ++
  "\nDetail Level: " ++
  (if opts.detailLevel = "" then "standard" else opts.detailLevel) ++
  "\n\n" ++ "=======" ++ "=======" ++ "=======" ++ "=======" ++ "=======" ++ "=======" ++ "=======" ++ "=======" ++ "=======" ++ "=====" ++ "\n\nPATIENT PRESENTATION:\n\n" ++
  (generatePatientIntroduction info) ++
  " The patient presents with " ++
  (info.chiefComplaint) ++
  ". " ++
  (generateNarrativeHPI info) ++
  "\n\nMEDICAL BACKGROUND:\n\n" ++
  (generateMedicalHistoryNarrative info) ++
  "\n\nCURRENT CLINICAL STATUS:\n\n" ++
  (generateCurrentStatusNarrative info) ++
  "\n\n" ++
  (if opts.includeMedications && decide (info.medications ≠ []) then
    "CURRENT THERAPEUTIC REGIMEN:\n\nThe patient is currently managed with " ++
    formatMedicationsNarrative info.medications ++
    ". Medication adherence and therapeutic effectiveness should be regularly assessed during clinical encounters."
  else "") ++
  "\n\nCLINICAL ASSESSMENT AND MANAGEMENT APPROACH:\n\n" ++
  (generateAssessmentAndPlanNarrative info opts) ++
  "\n\nRECOMMENDED FOLLOW-UP AND MONITORING:\n\n" ++
  (generateFollowUpRecommendations info) ++
  "\n\nCLINICAL CONSIDERATIONS:\n\n" ++
  (generateClinicalConsiderations info) ++
  "\n\n" ++ "=======" ++ "=======" ++ "=======" ++ "=======" ++ "=======" ++ "=======" ++ "=======" ++ "=======" ++ "=======" ++ "=====" ++ "\nGenerated by Clinical History AI Agent\nNote: This narrative summary is AI-generated from source documentation.\nAll clinical information should be verified through direct patient assessment.\n" ++ "=======" ++ "=======" ++ "=======" ++ "=======" ++ "=======" ++ "=======" ++ "=======" ++ "=======" ++ "=======" ++ "====="

/-- `generateStructuredFollowUp`: a fixed template literal. -/
def generateStructuredFollowUp (_info : EnhancedInfo) : String :=
  "   1. Schedule appropriate follow-up based on condition acuity\n   2. Provide clear return precautions and warning signs\n   3. Ensure medication reconciliation and adherence\n   4. Coordinate with other healthcare providers as needed\n   5. Document all clinical decisions and patient communications"

/-- `generateStructuredHistory`: the structured template literal with its numbered sections. -/
def generateStructuredHistory (info : EnhancedInfo) (opts : GenOptions) (timestamp : String) : String :=
  "STRUCTURED CLINICAL HISTORY\nGenerated: " ++
  (timestamp) ++
  "\nDetail Level: " ++
  (if opts.detailLevel = "" then "standard" else opts.detailLevel) ++
  "\n\n" ++ "=======" ++ "=======" ++ "=======" ++ "=======" ++ "=======" ++ "=======" ++ "=======" ++ "=======" ++ "=======" ++ "=====" ++ "\n\n1. PATIENT DEMOGRAPHICS\n   " ++
  (formatDemographics info.demographics) ++
  "\n\n2. PRESENTING COMPLAINT\n   Chief Complaint: " ++
  (capitalizeFirst info.chiefComplaint) ++
  "\n   \n3. HISTORY OF PRESENT ILLNESS\n   " ++
  (generateStructuredHPI info) ++
  "\n   \n4. PAST MEDICAL HISTORY\n" ++
  (if info.conditions ≠ [] then
    jsJoin "\n" (info.conditions.enum.map (fun p =>
      "   " ++ toString (p.1 + 1) ++ ". " ++ capitalizeFirst p.2 ++ " " ++ getICD10 p.2 opts))
  else "   No significant past medical history documented") ++
  "\n\n5. CURRENT MEDICATIONS\n" ++
  (if info.medications ≠ [] then
    jsJoin "\n" (info.medications.enum.map (fun p =>
      "   " ++ toString (p.1 + 1) ++ ". " ++ capitalizeFirst p.2))
  else "   No current medications documented") ++
  "\n\n6. ALLERGIES\n   " ++
  (jsOr info.allergies "NKDA (No Known Drug Allergies)") ++
  "\n\n7. SOCIAL HISTORY\n   " ++
  (jsOr info.socialHistory "To be obtained during clinical encounter") ++
  "\n\n8. FAMILY HISTORY\n   " ++
  (jsOr info.familyHistory "Non-contributory or to be obtained") ++
  "\n\n9. REVIEW OF SYSTEMS\n   " ++
  (generateStructuredROS info) ++
  "\n\n10. PHYSICAL EXAMINATION\n    " ++
  (generateStructuredPhysicalExam info) ++
  "\n\n11. DIAGNOSTIC STUDIES\n    " ++
  (generateDiagnosticStudies info) ++
  "\n\n12. CLINICAL ASSESSMENT\n    " ++
  (generateStructuredAssessment info opts) ++
  "\n\n13. MANAGEMENT PLAN\n    " ++
  (generateStructuredManagementPlan info opts) ++
  "\n\n14. FOLLOW-UP RECOMMENDATIONS\n    " ++
  (generateStructuredFollowUp info) ++
  "\n\n" ++ "=======" ++ "=======" ++ "=======" ++ "=======" ++ "=======" ++ "=======" ++ "=======" ++ "=======" ++ "=======" ++ "=====" ++ "\nGenerated by Clinical History AI Agent\nClinical Decision Support Tool - Verify all information clinically\n" ++ "=======" ++ "=======" ++ "=======" ++ "=======" ++ "=======" ++ "=======" ++ "=======" ++ "=======" ++ "=======" ++ "====="

/-- The `metadata` template literal of `addMetadataAndValidation`; the footer `moment()` timestamp is the explicit `footerTs` argument. -/
def metadataBlock (fileName : String) (opts : GenOptions) (footerTs : String) : String :=
  "\nDOCUMENT METADATA:\n" ++ "=======" ++ "=======" ++ "===" ++ "\nSource File: " ++
  (fileName) ++
  "\nGenerated: " ++
  (footerTs) ++
  "\nFormat: " ++
  (if opts.outputFormat = "" then "SOAP" else opts.outputFormat) ++
  "\nDetail Level: " ++
  (if opts.detailLevel = "" then "standard" else opts.detailLevel) ++
  "\nICD-10 Codes: " ++
  (if opts.includeICD10 then "Included" else "Not included") ++
  "\nMedications: " ++
  (if opts.includeMedications then "Included" else "Not included") ++
  "\nGenerator: Clinical History AI Agent v1.0\n\nIMPORTANT DISCLAIMERS:\n" ++ "=======" ++ "=======" ++ "=======" ++ "\n\u2022 This clinical history is AI-generated from source documentation\n\u2022 All information should be verified through direct patient assessment\n\u2022 Clinical correlation and professional judgment are required\n\u2022 This tool is for clinical decision support only\n\u2022 Always follow institutional protocols and guidelines\n\n"

/-- `addMetadataAndValidation`. -/
def addMetadataAndValidation (clinicalHistory fileName : String) (opts : GenOptions)
    (footerTs : String) : String :=
  clinicalHistory ++ "\n\n" ++ metadataBlock fileName opts footerTs

/-! ## Top-level `generate` -/

/-- `generate` (the happy path of the `try` block): preprocess, extract,
enrich, select the template by `options.outputFormat` (defaulting to SOAP
for unknown or absent values), and append the metadata footer.  The two
`moment()` calls — the template timestamp and the footer timestamp — are
the explicit `bodyTs`/`footerTs` arguments. -/
def generate (text fileName : String) (opts : GenOptions) (bodyTs footerTs : String) : String :=
  let cleanedText := preprocessText text
  let medicalInfo := extractMedicalInfo cleanedText
  let enhancedInfo := enhanceMedicalInfo medicalInfo opts
  let clinicalHistory :=
    if opts.outputFormat = "soap" then generateSOAPNote enhancedInfo opts bodyTs
    else if opts.outputFormat = "narrative" then generateNarrativeHistory enhancedInfo opts bodyTs
    else if opts.outputFormat = "structured" then generateStructuredHistory enhancedInfo opts bodyTs
    else generateSOAPNote enhancedInfo opts bodyTs
  addMetadataAndValidation clinicalHistory fileName opts footerTs

/-- A JS `Error` (only its message is observable here). -/
structure JsError where
  message : String
deriving Repr, DecidableEq

/-- The `catch` of `generate`: any error thrown by the body is re-raised
once as `new Error('Failed to generate clinical history: ' + error.message)`;
a successful body result is returned unchanged.  The body outcome is the
argument. -/
def generateCaught (body : Except JsError String) : Except JsError String :=
  match body with
  | .ok h => .ok h
  | .error e => .error ⟨"Failed to generate clinical history: " ++ e.message⟩

/-- The log lines `generate` emits: the entry log, then either the
success log or the failure log (the latter is the only place the file
name is attached to the failure). -/
def generateLogs (fileName : String) (body : Except JsError String) : List String :=
  match body with
  | .ok _ =>
    ["Generating clinical history for: " ++ fileName,
     "Successfully generated clinical history for: " ++ fileName]
  | .error _ =>
    ["Generating clinical history for: " ++ fileName,
     "Clinical history generation failed for " ++ fileName ++ ":"]

/-! ## Verification -/

/-- Prop-level substring containment for report strings. -/
def containsStr (s sub : String) : Prop := sub.data <:+: s.data

instance containsStrDec (s sub : String) : Decidable (containsStr s sub) :=
  inferInstanceAs (Decidable (_ <:+: _))

/-! ### Normalizer lemmas (towards C8) -/

/-- The no-adjacent-whitespace relation on neighbouring characters. -/
def NoWsPair (a b : Char) : Prop := isJsWs a = false ∨ isJsWs b = false

theorem noWsPair_symm : ∀ a b, NoWsPair a b → NoWsPair b a := by
  intro a b h; exact h.symm

theorem printable_ws_eq_space {c : Char} (h1 : ' ' ≤ c) (h2 : c ≤ '~')
    (hw : isJsWs c = true) : c = ' ' := by
  simp only [isJsWs, decide_eq_true_eq] at hw
  rcases hw with h | h | h | h | h | h | h | h | ⟨hr, -⟩ | h | h | h | h | h | h
  · exact h
  all_goals first
    | (subst h; exact absurd h1 (by decide))
    | (subst h; exact absurd h2 (by decide))
    | (exact absurd (le_trans hr h2) (by decide))

theorem collapseWSAux_mem {l : List Char} {b : Bool} {c : Char}
    (h : c ∈ collapseWSAux b l) : c = ' ' ∨ (c ∈ l ∧ isJsWs c = false) := by
  induction l generalizing b with
  | nil => simp [collapseWSAux] at h
  | cons d rest ih =>
    simp only [collapseWSAux] at h
    by_cases hw : isJsWs d = true
    · simp only [hw, if_true] at h
      cases b with
      | true =>
        rcases ih h with h' | ⟨hm, hnw⟩
        · exact Or.inl h'
        · exact Or.inr ⟨List.mem_cons_of_mem _ hm, hnw⟩
      | false =>
        rcases List.mem_cons.1 h with h' | h'
        · exact Or.inl h'
        · rcases ih h' with h'' | ⟨hm, hnw⟩
          · exact Or.inl h''
          · exact Or.inr ⟨List.mem_cons_of_mem _ hm, hnw⟩
    · simp only [Bool.not_eq_true] at hw
      simp only [hw, Bool.false_eq_true, if_false] at h
      rcases List.mem_cons.1 h with h' | h'
      · subst h'; exact Or.inr ⟨List.mem_cons_self _ _, hw⟩
      · rcases ih h' with h'' | ⟨hm, hnw⟩
        · exact Or.inl h''
        · exact Or.inr ⟨List.mem_cons_of_mem _ hm, hnw⟩

theorem collapseWSAux_true_head {l : List Char} {c : Char}
    (h : (collapseWSAux true l).head? = some c) : isJsWs c = false := by
  induction l with
  | nil => simp [collapseWSAux] at h
  | cons d rest ih =>
    simp only [collapseWSAux] at h
    by_cases hw : isJsWs d = true
    · simp only [hw, if_true] at h; exact ih h
    · simp only [Bool.not_eq_true] at hw
      simp only [hw, Bool.false_eq_true, if_false, List.head?_cons, Option.some.injEq] at h
      subst h; exact hw

theorem collapseWSAux_chain' (l : List Char) (b : Bool) :
    List.Chain' NoWsPair (collapseWSAux b l) := by
  induction l generalizing b with
  | nil => simp [collapseWSAux]
  | cons d rest ih =>
    simp only [collapseWSAux]
    by_cases hw : isJsWs d = true
    · simp only [hw, if_true]
      cases b with
      | true => exact ih true
      | false =>
        refine List.chain'_cons'.2 ⟨?_, ih true⟩
        intro y hy
        exact Or.inr (collapseWSAux_true_head hy)
    · simp only [Bool.not_eq_true] at hw
      simp only [hw, Bool.false_eq_true, if_false]
      refine List.chain'_cons'.2 ⟨?_, ih false⟩
      intro y _
      exact Or.inl hw

theorem collapseWSAux_eq_self {l : List Char}
    (hch : List.Chain' NoWsPair l) (hsp : ∀ c ∈ l, isJsWs c = true → c = ' ') :
    collapseWSAux false l = l := by
  induction l with
  | nil => rfl
  | cons d rest ih =>
    have ihrest : collapseWSAux false rest = rest :=
      ih (List.chain'_cons'.1 hch).2
        (fun c hc hcw => hsp c (List.mem_cons_of_mem _ hc) hcw)
    by_cases hw : isJsWs d = true
    · have hd : d = ' ' := hsp d (List.mem_cons_self _ _) hw
      subst hd
      have hrest : collapseWSAux true rest = rest := by
        cases rest with
        | nil => rfl
        | cons e rest' =>
          have hne : isJsWs e = false := by
            rcases (List.chain'_cons'.1 hch).1 e rfl with h | h
            · rw [hw] at h; cases h
            · exact h
          have h2 : collapseWSAux false (e :: rest') = e :: collapseWSAux false rest' := by
            simp [collapseWSAux, hne]
          calc collapseWSAux true (e :: rest')
              = e :: collapseWSAux false rest' := by simp [collapseWSAux, hne]
            _ = collapseWSAux false (e :: rest') := h2.symm
            _ = e :: rest' := ihrest
      simp [collapseWSAux, hw, hrest]
    · simp only [Bool.not_eq_true] at hw
      simp [collapseWSAux, hw, ihrest]

theorem head?_dropWhile {p : Char → Bool} {l : List Char} {c : Char}
    (h : (l.dropWhile p).head? = some c) : p c = false := by
  induction l with
  | nil => simp [List.dropWhile] at h
  | cons d rest ih =>
    simp only [List.dropWhile] at h
    by_cases hp : p d = true
    · simp only [hp, if_true] at h; exact ih h
    · simp only [Bool.not_eq_true] at hp
      simp only [hp, Bool.false_eq_true, if_false, List.head?_cons, Option.some.injEq] at h
      subst h; exact hp

theorem jsTrimList_head {l : List Char} {c : Char}
    (h : (jsTrimList l).head? = some c) : isJsWs c = false := by
  unfold jsTrimList at h
  rw [List.head?_reverse] at h
  set A := l.dropWhile isJsWs with hA
  set B := A.reverse.dropWhile isJsWs with hB
  rcases hsuf : B with _ | ⟨b0, Brest⟩
  · rw [hsuf] at h; simp at h
  · have hsx : B <:+ A.reverse := List.dropWhile_suffix _
    obtain ⟨T, hT⟩ := hsx
    have : A.reverse.getLast? = B.getLast? := by
      rw [← hT, List.getLast?_append]
      rcases hgl : B.getLast? with _ | x
      · rw [hsuf] at hgl; simp [List.getLast?] at hgl
      · simp
    rw [← this, List.getLast?_reverse] at h
    exact head?_dropWhile h

theorem jsTrimList_getLast {l : List Char} {c : Char}
    (h : (jsTrimList l).getLast? = some c) : isJsWs c = false := by
  unfold jsTrimList at h
  rw [List.getLast?_reverse] at h
  exact head?_dropWhile h

theorem dropWhile_eq_self_of_head {p : Char → Bool} {l : List Char}
    (h : ∀ c ∈ l.head?, p c = false) : l.dropWhile p = l := by
  cases l with
  | nil => rfl
  | cons d rest =>
    have := h d rfl
    simp [List.dropWhile, this]

theorem jsTrimList_eq_self {l : List Char}
    (h1 : ∀ c ∈ l.head?, isJsWs c = false)
    (h2 : ∀ c ∈ l.getLast?, isJsWs c = false) : jsTrimList l = l := by
  unfold jsTrimList
  rw [dropWhile_eq_self_of_head h1]
  rw [dropWhile_eq_self_of_head (by rwa [List.head?_reverse])]
  exact List.reverse_reverse l

theorem jsTrimList_sublist (l : List Char) : (jsTrimList l).Sublist l := by
  unfold jsTrimList
  have h1 : ((l.dropWhile isJsWs).reverse.dropWhile isJsWs).Sublist
      (l.dropWhile isJsWs).reverse := List.dropWhile_sublist _
  have h2 := h1.reverse
  rw [List.reverse_reverse] at h2
  exact h2.trans (List.dropWhile_sublist _)

theorem chain'_suffix {R : Char → Char → Prop} {l₁ l₂ : List Char}
    (h : l₁ <:+ l₂) (hch : List.Chain' R l₂) : List.Chain' R l₁ := by
  obtain ⟨T, hT⟩ := h
  subst hT
  exact (List.chain'_append.1 hch).2.1

theorem jsTrimList_chain' {l : List Char} (hch : List.Chain' NoWsPair l) :
    List.Chain' NoWsPair (jsTrimList l) := by
  unfold jsTrimList
  have c1 : List.Chain' NoWsPair (l.dropWhile isJsWs) :=
    chain'_suffix (List.dropWhile_suffix _) hch
  have c2 : List.Chain' NoWsPair (l.dropWhile isJsWs).reverse :=
    List.chain'_reverse.2 (c1.imp (fun a b h => noWsPair_symm a b h))
  have c3 : List.Chain' NoWsPair ((l.dropWhile isJsWs).reverse.dropWhile isJsWs) :=
    chain'_suffix (List.dropWhile_suffix _) c2
  exact List.chain'_reverse.2 (c3.imp (fun a b h => noWsPair_symm a b h))

theorem replaceCRLF_eq_self {l : List Char} (h : ∀ c ∈ l, c ≠ '\r') :
    replaceCRLF l = l := by
  induction l with
  | nil => rfl
  | cons c rest ih =>
    cases rest with
    | nil => simp [replaceCRLF]
    | cons d rest' =>
      have hc : c ≠ '\r' := h c (List.mem_cons_self _ _)
      have : ¬(c = '\r' ∧ d = '\n') := fun hcd => hc hcd.1
      simp only [replaceCRLF, this, if_false]
      rw [ih (fun x hx => h x (List.mem_cons_of_mem _ hx))]

theorem replaceCR_eq_self {l : List Char} (h : ∀ c ∈ l, c ≠ '\r') :
    replaceCR l = l := by
  unfold replaceCR
  have : ∀ c ∈ l, (if c = '\r' then '\n' else c) = id c := by
    intro c hc
    simp [h c hc]
  rw [List.map_congr_left this, List.map_id]

theorem collapseNLAux_eq_self {l : List Char} (h : ∀ c ∈ l, c ≠ '\n') :
    collapseNLAux 0 l = l := by
  induction l with
  | nil => simp [collapseNLAux, emitNLRun]
  | cons c rest ih =>
    have hc : c ≠ '\n' := h c (List.mem_cons_self _ _)
    simp only [collapseNLAux, hc, if_false, emitNLRun]
    norm_num
    exact ih (fun x hx => h x (List.mem_cons_of_mem _ hx))

/-- Characters of the normalized output are printable ASCII. -/
theorem preprocessList_mem {l : List Char} {c : Char} (h : c ∈ preprocessList l) :
    ' ' ≤ c ∧ c ≤ '~' := by
  unfold preprocessList at h
  have h1 : c ∈ collapseWS (filterPrintable (collapseNewlines (replaceCR (replaceCRLF l)))) :=
    (jsTrimList_sublist _).mem h
  rcases collapseWSAux_mem h1 with h2 | ⟨h2, hnw⟩
  · subst h2; exact ⟨le_refl _, by decide⟩
  · have h3 := List.mem_filter.1 h2
    rcases (of_decide_eq_true h3.2 : _ ∨ _) with ⟨ha, hb⟩ | hn
    · exact ⟨ha, hb⟩
    · subst hn; simp [isJsWs] at hnw

/-- The normalized output has no two adjacent whitespace characters. -/
theorem preprocessList_chain' (l : List Char) :
    List.Chain' NoWsPair (preprocessList l) :=
  jsTrimList_chain' (collapseWSAux_chain' _ false)

/-- The text normalizer is idempotent on character lists. -/
theorem preprocessList_idem (l : List Char) :
    preprocessList (preprocessList l) = preprocessList l := by
  set out := preprocessList l with hout
  have hmem : ∀ c ∈ out, ' ' ≤ c ∧ c ≤ '~' := fun c hc => preprocessList_mem hc
  have hnr : ∀ c ∈ out, c ≠ '\r' := by
    intro c hc he; subst he; exact absurd (hmem _ hc).1 (by decide)
  have hnn : ∀ c ∈ out, c ≠ '\n' := by
    intro c hc he; subst he; exact absurd (hmem _ hc).1 (by decide)
  have hsp : ∀ c ∈ out, isJsWs c = true → c = ' ' :=
    fun c hc hw => printable_ws_eq_space (hmem c hc).1 (hmem c hc).2 hw
  have hch : List.Chain' NoWsPair out := preprocessList_chain' l
  have hhead : ∀ c ∈ out.head?, isJsWs c = false := by
    intro c hc
    exact jsTrimList_head (by rw [hout] at hc; exact hc)
  have hlast : ∀ c ∈ out.getLast?, isJsWs c = false := by
    intro c hc
    exact jsTrimList_getLast (by rw [hout] at hc; exact hc)
  show preprocessList out = out
  unfold preprocessList
  rw [replaceCRLF_eq_self hnr, replaceCR_eq_self hnr]
  rw [show collapseNewlines out = out from collapseNLAux_eq_self hnn]
  rw [show filterPrintable out = out from List.filter_eq_self.2 ?side]
  case side =>
    intro c hc
    exact decide_eq_true (Or.inl (hmem c hc))
  rw [show collapseWS out = out from collapseWSAux_eq_self hch hsp]
  exact jsTrimList_eq_self hhead hlast

/-- C8: `preprocessText` is idempotent:
`preprocessText (preprocessText x) = preprocessText x` for every string. -/
theorem preprocessText_idempotent (x : String) :
    preprocessText (preprocessText x) = preprocessText x := by
  unfold preprocessText
  by_cases hx : x = ""
  · simp [hx]
  · simp only [hx, if_false]
    by_cases hz : (⟨preprocessList x.data⟩ : String) = ""
    · simp [hz]
    · simp only [hz, if_false]
      exact congrArg String.mk (preprocessList_idem x.data)

/-! ### C10: single-letter lab labels match without word boundaries -/

/-- C10: the text `"task: 5"` contains no laboratory terminology, yet
`extractLabs` returns a non-null mapping with `potassium = "5"` — the
single-letter alternative `k` of the potassium pattern matches inside the
word `task`. -/
theorem extractLabs_task_5 :
    extractLabs "task: 5" = some [("potassium", "5")] := by decide

/-! ### C7: the wrapped error -/

/-- C7 (amended): when the body of `generate` throws, exactly one wrapped
error is raised whose message carries the original error's message, and no
report string is returned; the file name is recorded in the error log
entry, not in the raised error. -/
theorem generateCaught_spec (fileName : String) (e : JsError) :
    (∃ msg, generateCaught (Except.error e) = Except.error ⟨msg⟩ ∧
      containsStr msg e.message) ∧
    (∃ log ∈ generateLogs fileName (Except.error e), containsStr log fileName) ∧
    (∀ s, generateCaught (Except.error e) ≠ Except.ok s) := by
  refine ⟨⟨"Failed to generate clinical history: " ++ e.message, rfl, ?_⟩,
    ⟨"Clinical history generation failed for " ++ fileName ++ ":", ?_, ?_⟩, ?_⟩
  · show e.message.data <:+: ("Failed to generate clinical history: " ++ e.message).data
    rw [String.data_append]
    exact (List.suffix_append _ _).isInfix
  · simp [generateLogs]
  · show fileName.data <:+: ("Clinical history generation failed for " ++ fileName ++ ":").data
    rw [String.data_append, String.data_append]
    exact List.infix_append _ _ _
  · intro s h
    simp [generateCaught] at h

/-- C7 counterexample to the claim as stated: the wrapped error carries
the original message but not the file name — for an internal error
`"boom"` raised while processing `"report.pdf"`, the raised error's
message is exactly `"Failed to generate clinical history: boom"`, which
does not contain the file name. -/
theorem generateCaught_no_fileName :
    generateCaught (Except.error ⟨"boom"⟩) =
      Except.error ⟨"Failed to generate clinical history: boom"⟩ ∧
    ¬ containsStr "Failed to generate clinical history: boom" "report.pdf" :=
  ⟨rfl, by decide⟩

/-! ### C3: allergy-pattern order -/

/-- C3 (amended): `extractAllergies` tries the labelled
`allergies:`/`allergic to:` patterns before the bare `nkda` pattern; when
the first labelled pattern matches with a whole match free of the
`nkda`/`no known` markers and a nonempty capture, the trimmed capture is
returned — even when the `nkda` pattern matches elsewhere in the text. -/
theorem extractAllergies_labeled_first (text m0 cap : String)
    (h1 : findLabeled ["allergies", "allergie"] text = some (m0, cap))
    (h2 : nkdaMarker m0 = false) (h3 : cap ≠ "")
    (_h4 : findNkda text ≠ none) :
    extractAllergies text = some (jsTrim cap) := by
  unfold extractAllergies
  rw [h1]
  simp [h2, h3]

theorem extractAllergies_labeled_first_witness :
    extractAllergies "allergies: penicillin. nkda" = some (jsTrim "penicillin") :=
  extractAllergies_labeled_first "allergies: penicillin. nkda"
    "allergies: penicillin." "penicillin" (by decide) (by decide) (by decide) (by decide)

/-- C3 counterexample to the claim as stated: the `nkda` pattern matches
the text, yet the earlier labelled pattern wins and the capture is
returned instead of the fixed NKDA string. -/
theorem extractAllergies_nkda_not_short_circuit :
    extractAllergies "allergies: penicillin. nkda" = some "penicillin" ∧
    findNkda "allergies: penicillin. nkda" ≠ none ∧
    ("penicillin" : String) ≠ "NKDA (No Known Drug Allergies)" :=
  ⟨by decide, by decide, by decide⟩

/-! ### Deduplication lemmas (`[...new Set]`) -/

theorem dedupAux_mem {seen l : List String} {a : String} :
    a ∈ dedupAux seen l ↔ a ∈ l ∧ a ∉ seen := by
  induction l generalizing seen with
  | nil => simp [dedupAux]
  | cons s rest ih =>
    simp only [dedupAux]
    by_cases hs : s ∈ seen
    · rw [if_pos hs, ih]
      constructor
      · rintro ⟨h1, h2⟩
        exact ⟨List.mem_cons_of_mem _ h1, h2⟩
      · rintro ⟨h1, h2⟩
        rcases List.mem_cons.1 h1 with h | h
        · subst h; exact absurd hs h2
        · exact ⟨h, h2⟩
    · rw [if_neg hs]
      constructor
      · intro h
        rcases List.mem_cons.1 h with h | h
        · subst h; exact ⟨List.mem_cons_self _ _, hs⟩
        · rcases ih.1 h with ⟨h1, h2⟩
          exact ⟨List.mem_cons_of_mem _ h1, fun hm => h2 (List.mem_cons_of_mem _ hm)⟩
      · rintro ⟨h1, h2⟩
        rcases List.mem_cons.1 h1 with h | h
        · subst h; exact List.mem_cons_self _ _
        · by_cases he : a = s
          · subst he; exact List.mem_cons_self _ _
          · refine List.mem_cons_of_mem _ (ih.2 ⟨h, fun hm => ?_⟩)
            rcases List.mem_cons.1 hm with h' | h'
            · exact he h'
            · exact h2 h'

theorem dedupFirst_mem {l : List String} {a : String} :
    a ∈ dedupFirst l ↔ a ∈ l := by
  unfold dedupFirst
  rw [dedupAux_mem]
  simp

theorem dedupAux_eq_self {seen l : List String}
    (hd : ∀ s ∈ l, s ∉ seen) (hn : l.Nodup) : dedupAux seen l = l := by
  induction l generalizing seen with
  | nil => rfl
  | cons s rest ih =>
    have hs : s ∉ seen := hd s (List.mem_cons_self _ _)
    simp only [dedupAux, hs, if_false]
    congr 1
    refine ih ?_ (List.nodup_cons.1 hn).2
    intro x hx
    intro hmem
    rcases List.mem_cons.1 hmem with h | h
    · subst h; exact (List.nodup_cons.1 hn).1 hx
    · exact hd x (List.mem_cons_of_mem _ hx) h

theorem dedupFirst_eq_self {l : List String} (hn : l.Nodup) : dedupFirst l = l :=
  dedupAux_eq_self (by simp) hn

/-! ### Leftmost-scan lemmas -/

theorem scanPos_isSome_iff (g : List Char → Option α) (prev : Option Char)
    (L : List Char) :
    (scanPos (fun _ l => g l) prev L).isSome ↔ ∃ l, l <:+ L ∧ (g l).isSome := by
  induction L generalizing prev with
  | nil =>
    constructor
    · intro h; exact ⟨[], List.suffix_refl _, h⟩
    · rintro ⟨l, hl, hs⟩
      rw [List.suffix_nil.1 hl] at hs
      exact hs
  | cons c cs ih =>
    simp only [scanPos]
    cases hg : g (c :: cs) with
    | some a =>
      simp only [Option.isSome_some, true_iff]
      exact ⟨c :: cs, List.suffix_refl _, by rw [hg]; rfl⟩
    | none =>
      rw [ih]
      constructor
      · rintro ⟨l, hl, hs⟩
        exact ⟨l, hl.trans (List.suffix_cons c cs), hs⟩
      · rintro ⟨l, hl, hs⟩
        rcases List.suffix_cons_iff.1 hl with h | h
        · subst h; rw [hg] at hs; exact absurd hs (by simp)
        · exact ⟨l, h, hs⟩

theorem takeWhile_ne_nil_iff {p : Char → Bool} {l : List Char} :
    l.takeWhile p ≠ [] ↔ ∃ c, l.head? = some c ∧ p c = true := by
  cases l with
  | nil => simp [List.takeWhile]
  | cons c cs =>
    simp only [List.takeWhile, List.head?_cons]
    by_cases hp : p c = true
    · simp [hp]
    · simp only [Bool.not_eq_true] at hp
      simp [hp]

/-! ### C6: the dosage capture -/

/-- The per-position dosage matcher succeeds exactly when the medication
literal matches and (after optional whitespace) a digit or period
follows — no unit is required. -/
theorem dosageAt_isSome_iff (med l : List Char) :
    (dosageAt med l).isSome ↔
      ∃ r, matchLitCI med l = some r ∧
        ∃ c, (r.dropWhile isJsWs).head? = some c ∧ (isDigitChar c = true ∨ c = '.') := by
  cases hm : matchLitCI med l with
  | none => simp [dosageAt, hm]
  | some r =>
    simp only [dosageAt, hm, Option.some.injEq]
    constructor
    · intro hsome
      by_cases hnum :
          List.takeWhile (fun c => decide (isDigitChar c = true ∨ c = '.'))
            (List.dropWhile isJsWs r) = []
      · rw [if_pos hnum] at hsome
        simp at hsome
      · rcases takeWhile_ne_nil_iff.1 hnum with ⟨c, hc, hp⟩
        exact ⟨r, rfl, c, hc, of_decide_eq_true hp⟩
    · rintro ⟨r2, hr2, c, hc, hd⟩
      subst hr2
      have hnum :
          List.takeWhile (fun c => decide (isDigitChar c = true ∨ c = '.'))
            (List.dropWhile isJsWs r) ≠ [] :=
        takeWhile_ne_nil_iff.2 ⟨c, hc, decide_eq_true hd⟩
      rw [if_neg hnum]
      simp

/-- The length of a string append. -/
theorem string_length_append (a b : String) : (a ++ b).length = a.length + b.length := by
  cases a with
  | mk da =>
    cases b with
    | mk db => simp [String.length, String.append]

/-- C6 (amended): for every detected dictionary medication, the stored
entry is in the extracted medication list, and a dosage is appended to it
exactly when the medication name occurs somewhere in the text followed
(after optional whitespace) by a digit-or-period character — the unit
(`mg`/`mcg`/`g`/`unit(s)`) is optional and not required for the
append. -/
theorem extractMedications_dosage (text med : String)
    (h1 : med ∈ MedicalTerms.medications) (h2 : testWordLit med text = true) :
    composeMedication text med ∈ extractMedications text ∧
    ((∃ d, composeMedication text med = med ++ " " ++ d) ↔
      ∃ l r c, l <:+ text.data ∧ matchLitCI med.data l = some r ∧
        (r.dropWhile isJsWs).head? = some c ∧ (isDigitChar c = true ∨ c = '.')) := by
  constructor
  · rw [extractMedications, dedupFirst_mem]
    exact List.mem_map_of_mem _ (List.mem_filter.2 ⟨h1, h2⟩)
  · have hiff : (dosageCapture med text).isSome ↔
        ∃ l r c, l <:+ text.data ∧ matchLitCI med.data l = some r ∧
          (r.dropWhile isJsWs).head? = some c ∧ (isDigitChar c = true ∨ c = '.') := by
      unfold dosageCapture scanFirst
      rw [show ∀ (o : Option (List Char)) (f : List Char → String),
            (o.map f).isSome = o.isSome from fun o f => by cases o <;> rfl]
      rw [scanPos_isSome_iff (fun l => dosageAt med.data l) none text.data]
      constructor
      · rintro ⟨l, hl, hs⟩
        rcases (dosageAt_isSome_iff med.data l).1 hs with ⟨r, hr, c, hc, hd⟩
        exact ⟨l, r, c, hl, hr, hc, hd⟩
      · rintro ⟨l, r, c, hl, hr, hc, hd⟩
        exact ⟨l, hl, (dosageAt_isSome_iff med.data l).2 ⟨r, hr, c, hc, hd⟩⟩
    constructor
    · rintro ⟨d, hd⟩
      refine hiff.1 ?_
      unfold composeMedication at hd
      cases hc : dosageCapture med text with
      | some d' => rfl
      | none =>
        exfalso
        simp only [hc] at hd
        have hlen : med.length = (med ++ " " ++ d).length := by rw [← hd]
        have hone : (" " : String).length = 1 := rfl
        rw [string_length_append, string_length_append, hone] at hlen
        omega
    · intro h
      have := hiff.2 h
      unfold composeMedication
      cases hc : dosageCapture med text with
      | some d' => exact ⟨d', rfl⟩
      | none => rw [hc] at this; exact absurd this (by simp)

theorem extractMedications_dosage_witness :
    composeMedication "aspirin 81" "aspirin" ∈ extractMedications "aspirin 81" ∧
    ((∃ d, composeMedication "aspirin 81" "aspirin" = "aspirin" ++ " " ++ d) ↔
      ∃ l r c, l <:+ ("aspirin 81" : String).data ∧
        matchLitCI ("aspirin" : String).data l = some r ∧
        (r.dropWhile isJsWs).head? = some c ∧ (isDigitChar c = true ∨ c = '.')) :=
  extractMedications_dosage "aspirin 81" "aspirin" (by decide) (by decide)

/-- C6 counterexample to the claim as stated: `"aspirin 81"` has no unit
after the number, yet the dosage `"81"` is still appended — the stored
entry is not the bare medication name. -/
theorem extractMedications_unit_not_required :
    extractMedications "aspirin 81" = ["aspirin 81"] ∧
    ("aspirin 81" : String) ≠ "aspirin" :=
  ⟨by decide, by decide⟩

/-! ### C5: deduplication and dictionary scan order -/

theorem complaints_nodup : MedicalTerms.complaints.Nodup := by decide

theorem conditions_nodup : MedicalTerms.conditions.Nodup := by decide

theorem procedures_nodup : MedicalTerms.procedures.Nodup := by decide

theorem medications_nodup : MedicalTerms.medications.Nodup := by decide

set_option maxRecDepth 4000 in
/-- No medication term is a prefix of a different medication term (so a
dosage suffix can never make two entries collide). -/
theorem medications_not_prefix :
    ∀ m1 ∈ MedicalTerms.medications, ∀ m2 ∈ MedicalTerms.medications,
      m1 ≠ m2 → ¬ m1.data <+: m2.data := by decide

/-- `composeMedication` extends the medication name on the right. -/
theorem composeMedication_eq_append (text med : String) :
    ∃ s, composeMedication text med = med ++ s := by
  unfold composeMedication
  cases dosageCapture med text with
  | some d => exact ⟨" " ++ d, String.append_assoc _ _ _⟩
  | none => exact ⟨"", (String.append_empty med).symm⟩

theorem filter_dedup_spec (dict : List String) (p : String → Bool) (hn : dict.Nodup) :
    (dedupFirst (dict.filter p)).Nodup ∧
    (dedupFirst (dict.filter p)).Sublist dict ∧
    ∀ t, t ∈ dedupFirst (dict.filter p) ↔ t ∈ dict ∧ p t = true := by
  have hf : (dict.filter p).Nodup := hn.filter p
  rw [dedupFirst_eq_self hf]
  exact ⟨hf, List.filter_sublist dict, fun t => List.mem_filter⟩

/-- C5: for each of the four dictionary-driven extractors, every matched
dictionary term contributes exactly one entry (no duplicates, whatever the
text repeats), membership is exactly "in the dictionary and the
word-boundary test succeeds", and entries follow dictionary scan order
(the list is a sublist of the dictionary; for medications, it is the
dictionary-ordered filter mapped through the dosage composition). -/
theorem dictionary_extractors_spec (text : String) :
    ((extractSymptoms text).Nodup ∧
      (extractSymptoms text).Sublist MedicalTerms.complaints ∧
      ∀ t, t ∈ extractSymptoms text ↔ t ∈ MedicalTerms.complaints ∧ testTerm t text = true) ∧
    ((extractConditions text).Nodup ∧
      (extractConditions text).Sublist MedicalTerms.conditions ∧
      ∀ t, t ∈ extractConditions text ↔ t ∈ MedicalTerms.conditions ∧ testTerm t text = true) ∧
    ((extractProcedures text).Nodup ∧
      (extractProcedures text).Sublist MedicalTerms.procedures ∧
      ∀ t, t ∈ extractProcedures text ↔ t ∈ MedicalTerms.procedures ∧ testTerm t text = true) ∧
    ((extractMedications text).Nodup ∧
      extractMedications text =
        (MedicalTerms.medications.filter (fun m => testWordLit m text)).map
          (composeMedication text)) := by
  refine ⟨?_, ?_, ?_, ?_⟩
  · exact filter_dedup_spec MedicalTerms.complaints _ complaints_nodup
  · exact filter_dedup_spec MedicalTerms.conditions _ conditions_nodup
  · exact filter_dedup_spec MedicalTerms.procedures _ procedures_nodup
  · have hf : (MedicalTerms.medications.filter (fun m => testWordLit m text)).Nodup :=
      medications_nodup.filter _
    have hinj : ∀ x ∈ MedicalTerms.medications.filter (fun m => testWordLit m text),
        ∀ y ∈ MedicalTerms.medications.filter (fun m => testWordLit m text),
        composeMedication text x = composeMedication text y → x = y := by
      intro x hx y hy he
      by_contra hne
      obtain ⟨sx, hsx⟩ := composeMedication_eq_append text x
      obtain ⟨sy, hsy⟩ := composeMedication_eq_append text y
      have hdx : x.data <+: (composeMedication text x).data := by
        rw [hsx, String.data_append]
        exact List.prefix_append _ _
      have hdy : y.data <+: (composeMedication text x).data := by
        rw [he, hsy, String.data_append]
        exact List.prefix_append _ _
      rcases List.prefix_or_prefix_of_prefix hdx hdy with h | h
      · exact medications_not_prefix x (List.mem_filter.1 hx).1 y
          (List.mem_filter.1 hy).1 hne h
      · exact medications_not_prefix y (List.mem_filter.1 hy).1 x
          (List.mem_filter.1 hx).1 (fun hxy => hne hxy.symm) h
    have hmapNodup :
        ((MedicalTerms.medications.filter (fun m => testWordLit m text)).map
          (composeMedication text)).Nodup := hf.map_on hinj
    constructor
    · rw [extractMedications, dedupFirst_eq_self hmapNodup]
      exact hmapNodup
    · rw [extractMedications, dedupFirst_eq_self hmapNodup]

/-! ### Capture-provenance lemmas (towards C4) -/

theorem matchLitCI_suffix {p l r : List Char} (h : matchLitCI p l = some r) :
    r <:+ l := by
  induction p generalizing l with
  | nil =>
    simp only [matchLitCI, Option.some.injEq] at h
    subst h; exact List.suffix_refl _
  | cons pc ps ih =>
    cases l with
    | nil => simp [matchLitCI] at h
    | cons c cs =>
      simp only [matchLitCI] at h
      by_cases hc : lowerChar c = lowerChar pc
      · rw [if_pos hc] at h
        exact (ih h).trans (List.suffix_cons c cs)
      · rw [if_neg hc] at h
        cases h

theorem splitAtTerm_pre {l cap : List Char} {t : Char}
    (h : splitAtTerm l = some (cap, t)) : cap <+: l := by
  induction l generalizing cap with
  | nil => simp [splitAtTerm] at h
  | cons c cs ih =>
    simp only [splitAtTerm] at h
    by_cases hc : c = '\n' ∨ c = '.'
    · rw [if_pos hc] at h
      simp only [Option.some.injEq, Prod.mk.injEq] at h
      obtain ⟨h1, -⟩ := h
      subst h1
      exact List.nil_prefix
    · rw [if_neg hc] at h
      cases hsp : splitAtTerm cs with
      | none => simp only [hsp] at h; cases h
      | some pr =>
        simp only [hsp, Option.map_some', Option.some.injEq, Prod.mk.injEq] at h
        obtain ⟨h1, h2⟩ := h
        subst h1
        obtain ⟨u, hu⟩ := @ih pr.1 (by rw [← h2]; exact hsp)
        exact ⟨u, by rw [List.cons_append, hu]⟩

theorem prefix_head_eq {cap l : List Char} {c : Char} (h : cap <+: l)
    (hh : cap.head? = some c) : l.head? = some c := by
  obtain ⟨t, rfl⟩ := h
  cases cap with
  | nil => simp at hh
  | cons a as => simpa using hh

theorem tailCapture_cap {r m0 cap : List Char} (h : tailCapture r = some (m0, cap)) :
    cap <:+: r ∧ ∀ c, cap.head? = some c → isLabelSep c = false := by
  simp only [tailCapture] at h
  cases hsp : splitAtTerm (r.dropWhile isLabelSep) with
  | some pr =>
    simp only [hsp] at h
    simp only [Option.some.injEq, Prod.mk.injEq] at h
    obtain ⟨-, h2⟩ := h
    subst h2
    have hpre : pr.1 <+: r.dropWhile isLabelSep :=
      @splitAtTerm_pre _ pr.1 pr.2 (by rw [hsp])
    refine ⟨hpre.isInfix.trans (List.dropWhile_suffix _).isInfix, ?_⟩
    intro c hc
    exact head?_dropWhile (prefix_head_eq hpre hc)
  | none =>
    simp only [hsp] at h
    by_cases hnl : (r.takeWhile isLabelSep).contains '\n'
    · rw [if_pos hnl] at h
      simp only [Option.some.injEq, Prod.mk.injEq] at h
      obtain ⟨-, h2⟩ := h
      subst h2
      exact ⟨List.nil_infix, fun c hc => by simp at hc⟩
    · rw [if_neg hnl] at h
      cases h

theorem altContLen_origin {alts : List String} {tl : List Char → Option α}
    {l : List Char} {n : Nat} {x : α} (h : altContLen alts tl l = some (n, x)) :
    ∃ r, r <:+ l ∧ tl r = some x := by
  induction alts with
  | nil => simp [altContLen] at h
  | cons a rest ih =>
    simp only [altContLen] at h
    cases hm : matchLitCI a.data l with
    | none => simp only [hm] at h; exact ih h
    | some r =>
      simp only [hm] at h
      cases ht : tl r with
      | none => simp only [ht] at h; exact ih h
      | some x0 =>
        simp only [ht, Option.some.injEq, Prod.mk.injEq] at h
        obtain ⟨-, h2⟩ := h
        subst h2
        exact ⟨r, matchLitCI_suffix hm, ht⟩

theorem altCont_origin {alts : List String} {tl : List Char → Option α}
    {l : List Char} {x : α} (h : altCont alts tl l = some x) :
    ∃ r, r <:+ l ∧ tl r = some x := by
  induction alts with
  | nil => simp [altCont] at h
  | cons a rest ih =>
    simp only [altCont] at h
    cases hm : matchLitCI a.data l with
    | none => simp only [hm] at h; exact ih h
    | some r =>
      simp only [hm] at h
      cases ht : tl r with
      | none => simp only [ht] at h; exact ih h
      | some x0 =>
        simp only [ht, Option.some.injEq] at h
        subst h
        exact ⟨r, matchLitCI_suffix hm, ht⟩

theorem scanPos_origin {f : Option Char → List Char → Option α}
    {prev : Option Char} {L : List Char} {a : α} (h : scanPos f prev L = some a) :
    ∃ p l, l <:+ L ∧ f p l = some a := by
  induction L generalizing prev with
  | nil =>
    simp only [scanPos] at h
    exact ⟨prev, [], List.suffix_refl _, h⟩
  | cons c cs ih =>
    simp only [scanPos] at h
    cases hf : f prev (c :: cs) with
    | some a0 =>
      simp only [hf, Option.some.injEq] at h
      subst h
      exact ⟨prev, c :: cs, List.suffix_refl _, hf⟩
    | none =>
      simp only [hf] at h
      obtain ⟨p, l, hl, hfl⟩ := ih h
      exact ⟨p, l, hl.trans (List.suffix_cons c cs), hfl⟩

theorem ccGap_origin {r cap : List Char} (h : ccGap r = some cap) :
    ∃ r2, r2 <:+ r ∧ ∃ u, tailCapture r2 = some (u, cap) := by
  induction r with
  | nil =>
    simp only [ccGap] at h
    cases ha : altCont ["presents", "complains of", "reports"] tailCapture [] with
    | none => simp only [ha] at h; exact Option.noConfusion h
    | some p =>
      simp only [ha, Option.some.injEq] at h
      obtain ⟨r2, hr2, ht⟩ := altCont_origin ha
      exact ⟨r2, hr2, p.1, by rw [ht, ← h]⟩
  | cons c cs ih =>
    simp only [ccGap] at h
    cases ha : altCont ["presents", "complains of", "reports"] tailCapture (c :: cs) with
    | some p =>
      simp only [ha, Option.some.injEq] at h
      obtain ⟨r2, hr2, ht⟩ := altCont_origin ha
      exact ⟨r2, hr2, p.1, by rw [ht, ← h]⟩
    | none =>
      simp only [ha] at h
      by_cases hc : c = '\n'
      · rw [if_pos hc] at h; cases h
      · rw [if_neg hc] at h
        obtain ⟨r2, hr2, hrest⟩ := ih h
        exact ⟨r2, hr2.trans (List.suffix_cons c cs), hrest⟩

theorem ccPresentsAt_cap {l cap : List Char} (h : ccPresentsAt l = some cap) :
    cap <:+: l ∧ ∀ c, cap.head? = some c → isLabelSep c = false := by
  unfold ccPresentsAt at h
  cases hm : matchLitCI ("patient" : String).data l with
  | none => simp only [hm] at h; exact Option.noConfusion h
  | some r =>
    simp only [hm] at h
    obtain ⟨r2, hr2, u, ht⟩ := ccGap_origin h
    obtain ⟨hinf, hhead⟩ := tailCapture_cap ht
    exact ⟨(hinf.trans hr2.isInfix).trans (matchLitCI_suffix hm).isInfix, hhead⟩

theorem labeledCapAt_cap {alts : List String} {l m0 cap : List Char}
    (h : labeledCapAt alts l = some (m0, cap)) :
    cap <:+: l ∧ ∀ c, cap.head? = some c → isLabelSep c = false := by
  unfold labeledCapAt at h
  cases ha : altContLen alts tailCapture l with
  | none => simp only [ha] at h; exact Option.noConfusion h
  | some p =>
    simp only [ha, Option.map_some', Option.some.injEq, Prod.mk.injEq] at h
    obtain ⟨-, h2⟩ := h
    subst h2
    obtain ⟨r, hr, ht⟩ := altContLen_origin ha
    have ht2 : tailCapture r = some (p.2.1, p.2.2) := by rw [ht]
    obtain ⟨hinf, hhead⟩ := tailCapture_cap ht2
    exact ⟨hinf.trans hr.isInfix, hhead⟩

theorem findLabeled_cap {alts : List String} {text m0 cap : String}
    (h : findLabeled alts text = some (m0, cap)) :
    cap.data <:+: text.data ∧
      ∀ c, cap.data.head? = some c → isLabelSep c = false := by
  unfold findLabeled scanFirst at h
  cases hs : scanPos (fun _ l => labeledCapAt alts l) none text.data with
  | none => simp only [hs] at h; exact Option.noConfusion h
  | some pr =>
    simp only [hs, Option.map_some', Option.some.injEq, Prod.mk.injEq] at h
    obtain ⟨-, h2⟩ := h
    have hcapd : cap.data = pr.2 := by rw [← h2]
    obtain ⟨p, l, hl, hf⟩ := scanPos_origin hs
    have hf2 : labeledCapAt alts l = some (pr.1, pr.2) := by rw [hf]
    obtain ⟨hinf, hhead⟩ := labeledCapAt_cap hf2
    rw [hcapd]
    exact ⟨hinf.trans hl.isInfix, hhead⟩

/-! ### Trim and lower-casing lemmas (towards C4) -/

theorem jsTrimList_ne_nil {l : List Char} {c : Char}
    (hh : l.head? = some c) (hc : isJsWs c = false) : jsTrimList l ≠ [] := by
  unfold jsTrimList
  intro hcontra
  have h1 : l.dropWhile isJsWs = l :=
    dropWhile_eq_self_of_head (by intro x hx; rw [hh] at hx; injection hx with h; subst h; exact hc)
  rw [h1] at hcontra
  have h2 : l.reverse.dropWhile isJsWs = [] := by
    have := congrArg List.reverse hcontra
    simpa using this
  rw [List.dropWhile_eq_nil_iff] at h2
  cases l with
  | nil => simp at hh
  | cons a as =>
    injection hh with h
    subst h
    have hw : isJsWs a = true := h2 a (by simp)
    simp [hw] at hc

theorem charOfNat_toNat {n : Nat} (h : n < 1000) : (Char.ofNat n).toNat = n := by
  unfold Char.ofNat Char.ofNatAux
  split
  · rfl
  · omega

theorem lowerChar_ne_G (c : Char) : lowerChar c ≠ 'G' := by
  unfold lowerChar
  split
  · next h =>
    intro heq
    have h1 : c.toNat ≤ 90 := by
      have := h.2
      simp [Char.le_def] at this
      exact this
    have h2 : 65 ≤ c.toNat := by
      have := h.1
      simp [Char.le_def] at this
      exact this
    have h3 : (Char.ofNat (c.toNat + 32)).toNat = c.toNat + 32 :=
      charOfNat_toNat (by omega)
    have h4 := congrArg Char.toNat heq
    rw [h3] at h4
    have h5 : ('G').toNat = 71 := rfl
    rw [h5] at h4
    omega
  · next h =>
    intro heq
    subst heq
    exact h (by decide)

theorem toLowerString_no_G (s : String) : 'G' ∉ (toLowerString s).data := by
  intro h
  unfold toLowerString at h
  rcases List.mem_map.1 h with ⟨c, -, hc⟩
  exact lowerChar_ne_G c hc

/-! ### C4: enrichment leaves the extraction-stage record unchanged -/

theorem firstM_caps {l : List (Option String)} {s : String}
    (h : l.firstM (fun c => match c with
      | some s0 => if s0 ≠ "" then some s0 else none
      | none => none) = some s) :
    some s ∈ l ∧ s ≠ "" := by
  induction l with
  | nil => exact Option.noConfusion h
  | cons a as ih =>
    simp only [List.firstM] at h
    cases a with
    | none =>
      simp only [Option.none_orElse] at h
      obtain ⟨h1, h2⟩ := ih h
      exact ⟨List.mem_cons_of_mem _ h1, h2⟩
    | some s0 =>
      change ((if s0 ≠ "" then some s0 else none) <|> _) = some s at h
      by_cases hs0 : s0 ≠ ""
      · rw [if_pos hs0, Option.some_orElse] at h
        injection h with h
        subst h
        exact ⟨List.mem_cons_self _ _, hs0⟩
      · rw [if_neg hs0, Option.none_orElse] at h
        obtain ⟨h1, h2⟩ := ih h
        exact ⟨List.mem_cons_of_mem _ h1, h2⟩

/-- The nonempty captures the chief-complaint patterns can return are
substrings of the scanned text whose first character is outside
`[:\s]`. -/
theorem cc_cap_props {t s : String}
    (hmem : some s ∈
      [(findLabeled ["chief complaint"] t).map Prod.snd,
       (findLabeled ["presenting complaint"] t).map Prod.snd,
       (findLabeled ["cc"] t).map Prod.snd,
       (scanFirst (fun _ => ccPresentsAt) t.data).map (fun c => (⟨c⟩ : String))]) :
    s.data <:+: t.data ∧ ∀ c, s.data.head? = some c → isLabelSep c = false := by
  have fromLabeled : ∀ alts : List String,
      some s = (findLabeled alts t).map Prod.snd →
      s.data <:+: t.data ∧ ∀ c, s.data.head? = some c → isLabelSep c = false := by
    intro alts h
    cases hfl : findLabeled alts t with
    | none => rw [hfl] at h; exact Option.noConfusion h
    | some pr =>
      rw [hfl] at h
      simp only [Option.map_some', Option.some.injEq] at h
      subst h
      exact @findLabeled_cap alts t pr.1 pr.2 (by rw [hfl])
  simp only [List.mem_cons, List.not_mem_nil, or_false] at hmem
  rcases hmem with h | h | h | h
  · exact fromLabeled _ h
  · exact fromLabeled _ h
  · exact fromLabeled _ h
  · cases hsc : scanFirst (fun _ => ccPresentsAt) t.data with
    | none => rw [hsc] at h; exact Option.noConfusion h
    | some capd =>
      rw [hsc] at h
      simp only [Option.map_some', Option.some.injEq] at h
      subst h
      obtain ⟨p, l, hl, hf⟩ := scanPos_origin hsc
      obtain ⟨hinf, hhead⟩ := ccPresentsAt_cap hf
      exact ⟨hinf.trans hl.isInfix, hhead⟩

/-- `extractChiefComplaint` unfolded to its top-level match. -/
theorem extractChiefComplaint_eq (t : String) :
    extractChiefComplaint t =
      match ([(findLabeled ["chief complaint"] t).map Prod.snd,
              (findLabeled ["presenting complaint"] t).map Prod.snd,
              (findLabeled ["cc"] t).map Prod.snd,
              (scanFirst (fun _ => ccPresentsAt) t.data).map
                (fun c => (⟨c⟩ : String))].firstM (fun c => match c with
                  | some s0 => if s0 ≠ "" then some s0 else none
                  | none => none)) with
      | some s => jsTrim s
      | none =>
        match extractSymptoms t with
        | s :: _ => s
        | [] => "General medical evaluation" := rfl

/-- When any symptom was extracted, the chief complaint is neither empty
nor the placeholder, so `enhanceMedicalInfo`'s rewrite guard cannot
fire. -/
theorem extractChiefComplaint_props (t : String)
    (hG : 'G' ∉ t.data) (hsym : extractSymptoms t ≠ []) :
    extractChiefComplaint t ≠ "" ∧
      extractChiefComplaint t ≠ "General medical evaluation" := by
  rw [extractChiefComplaint_eq]
  cases hfm : ([(findLabeled ["chief complaint"] t).map Prod.snd,
              (findLabeled ["presenting complaint"] t).map Prod.snd,
              (findLabeled ["cc"] t).map Prod.snd,
              (scanFirst (fun _ => ccPresentsAt) t.data).map
                (fun c => (⟨c⟩ : String))].firstM (fun c => match c with
                  | some s0 => if s0 ≠ "" then some s0 else none
                  | none => none)) with
  | some s =>
    simp only [hfm]
    obtain ⟨hmem, hne⟩ := firstM_caps hfm
    obtain ⟨hinf, hhead⟩ := cc_cap_props hmem
    have hdata : (jsTrim s).data = jsTrimList s.data := rfl
    constructor
    · cases hd : s.data with
      | nil =>
        exact absurd (by cases s; simpa using congrArg String.mk hd) hne
      | cons c cs =>
        have hhc : isLabelSep c = false := hhead c (by rw [hd]; rfl)
        have hws : isJsWs c = false := by
          have hthis := hhc
          simp only [isLabelSep, decide_eq_false_iff_not, not_or] at hthis
          cases hx : isJsWs c with
          | false => rfl
          | true => exact absurd hx hthis.2
        intro hcontra
        exact jsTrimList_ne_nil (l := s.data) (by rw [hd]; rfl) hws
          (by rw [← hdata, hcontra])
    · intro hcontra
      have hGmem : 'G' ∈ (jsTrim s).data := by rw [hcontra]; decide
      rw [hdata] at hGmem
      exact hG (hinf.subset ((jsTrimList_sublist s.data).mem hGmem))
  | none =>
    simp only [hfm]
    cases hsyme : extractSymptoms t with
    | nil => exact absurd hsyme hsym
    | cons s0 rest =>
      simp only [hsyme]
      have hmem : s0 ∈ extractSymptoms t := by
        rw [hsyme]; exact List.mem_cons_self _ _
      rw [extractSymptoms, dedupFirst_mem, List.mem_filter] at hmem
      have hall : ∀ x ∈ MedicalTerms.complaints,
          x ≠ "" ∧ x ≠ "General medical evaluation" := by decide
      exact hall s0 hmem.1

/-- C4: on every record produced by `extractMedicalInfo`,
`enhanceMedicalInfo` leaves all fifteen extraction-stage fields unchanged
— the enriched record projects back onto the extracted record, the three
enrichment fields being the only additions. -/
theorem enhanceMedicalInfo_preserves (text : String) (opts : GenOptions) :
    (enhanceMedicalInfo (extractMedicalInfo text) opts).toMedicalInfo =
      extractMedicalInfo text := by
  have hcc : (extractMedicalInfo text).chiefComplaint =
      extractChiefComplaint (toLowerString text) := rfl
  have hsy : (extractMedicalInfo text).symptoms =
      extractSymptoms (toLowerString text) := rfl
  by_cases hsym : (extractMedicalInfo text).symptoms = []
  · simp only [enhanceMedicalInfo]
    rw [if_neg (by rintro ⟨-, h2⟩; exact h2 hsym)]
  · have hprops := extractChiefComplaint_props (toLowerString text)
      (toLowerString_no_G text) (by rw [← hsy]; exact hsym)
    simp only [enhanceMedicalInfo]
    rw [if_neg (by
      rintro ⟨h1 | h1, -⟩
      · exact hprops.1 (by rw [← hcc]; exact h1)
      · exact hprops.2 (by rw [← hcc]; exact h1))]

theorem enhanceMedicalInfo_preserves_witness :
    (enhanceMedicalInfo (extractMedicalInfo "chest pain")
        ⟨"soap", "standard", true, true⟩).toMedicalInfo =
      extractMedicalInfo "chest pain" :=
  enhanceMedicalInfo_preserves "chest pain" ⟨"soap", "standard", true, true⟩

/-! ### C1: the ICD-10 flag gates the assessment codes but not the PMH
codes -/

theorem containsStr_append_first {a : String} (b : String) {n : String}
    (h : containsStr a n) : containsStr (a ++ b) n := by
  unfold containsStr at h ⊢
  rw [String.data_append]
  exact h.trans (List.prefix_append a.data b.data).isInfix

theorem containsStr_append_right (a : String) {s n : String}
    (h : containsStr s n) : containsStr (a ++ s) n := by
  unfold containsStr at h ⊢
  rw [String.data_append]
  exact h.trans (List.suffix_append a.data s.data).isInfix

theorem jsJoin_infix_of_mem {sep x : String} {l : List String} (hx : x ∈ l) :
    x.data <:+: (jsJoin sep l).data := by
  induction l with
  | nil => exact absurd hx (List.not_mem_nil x)
  | cons s rest ih =>
    cases rest with
    | nil =>
      rcases List.mem_singleton.1 hx with rfl
      exact List.infix_refl _
    | cons t ts =>
      rcases List.mem_cons.1 hx with rfl | hx'
      · rw [show jsJoin sep (x :: t :: ts) = x ++ sep ++ jsJoin sep (t :: ts) from rfl,
          String.data_append, String.data_append, List.append_assoc]
        exact (List.prefix_append _ _).isInfix
      · rw [show jsJoin sep (s :: t :: ts) = s ++ sep ++ jsJoin sep (t :: ts) from rfl,
          String.data_append]
        exact (ih hx').trans (List.suffix_append _ _).isInfix

theorem enhanceMedicalInfo_conditions (info : MedicalInfo) (opts : GenOptions) :
    (enhanceMedicalInfo info opts).conditions = info.conditions := by
  simp only [enhanceMedicalInfo]
  split <;> rfl

theorem generatePMH_contains_I10 {info : EnhancedInfo}
    (hc : "hypertension" ∈ info.conditions) :
    containsStr (generatePMH info) "I10" := by
  unfold generatePMH
  rw [if_neg (by intro h0; rw [h0] at hc; exact List.not_mem_nil _ hc)]
  unfold containsStr
  have hmem : ("• Hypertension (I10)" : String) ∈
      info.conditions.map (fun condition =>
        let icd10 := (MedicalTerms.icd10Lookup condition).getD "ICD-10: To be determined"
        "• " ++ capitalizeFirst condition ++ " (" ++ icd10 ++ ")") :=
    List.mem_map.2 ⟨"hypertension", hc, by decide⟩
  exact (show ("I10" : String).data <:+: ("• Hypertension (I10)" : String).data
    by decide).trans (jsJoin_infix_of_mem hmem)

/-- Shared engine for C1: whenever "hypertension" was extracted as a
condition and the SOAP template is selected (any `outputFormat` outside
narrative/structured), the rendered output contains "I10" — for either
value of `includeICD10`. -/
theorem generate_I10_of_hypertension (text fileName : String) (opts : GenOptions)
    (bodyTs footerTs : String)
    (h1 : opts.outputFormat ≠ "narrative") (h2 : opts.outputFormat ≠ "structured")
    (hc : "hypertension" ∈ (extractMedicalInfo (preprocessText text)).conditions) :
    containsStr (generate text fileName opts bodyTs footerTs) "I10" := by
  have hC : "hypertension" ∈
      (enhanceMedicalInfo (extractMedicalInfo (preprocessText text)) opts).conditions := by
    rw [enhanceMedicalInfo_conditions]; exact hc
  have hpmh := generatePMH_contains_I10 hC
  simp only [generate, addMetadataAndValidation]
  by_cases hf : opts.outputFormat = "soap"
  · rw [if_pos hf]
    simp only [generateSOAPNote, String.append_assoc]
    iterate 20 apply containsStr_append_right
    exact containsStr_append_first _ hpmh
  · rw [if_neg hf, if_neg h1, if_neg h2]
    simp only [generateSOAPNote, String.append_assoc]
    iterate 20 apply containsStr_append_right
    exact containsStr_append_first _ hpmh

/-- C1 (counterexample): with `includeICD10 = false` and a text in which
"hypertension" is detected, the rendered report still contains the code
"I10" — the Past Medical History bullets attach codes unconditionally. -/
theorem icd10_emitted_when_disabled :
    containsStr
      (generate "hypertension" "f.txt" ⟨"soap", "standard", false, true⟩ "T" "F")
      "I10" :=
  generate_I10_of_hypertension "hypertension" "f.txt"
    ⟨"soap", "standard", false, true⟩ "T" "F" (by decide) (by decide) (by decide)

/-- C1 (amended): for every input in which "hypertension" is detected as
a condition and every option record rendering via the SOAP template
(any `outputFormat` outside narrative/structured), the output contains
the mapped code "I10" regardless of the `includeICD10` flag: the flag
gates the assessment-section and structured-template codes, but the Past
Medical History section attaches codes unconditionally. -/
theorem generatePMH_icd10_unconditional (text fileName : String) (opts : GenOptions)
    (bodyTs footerTs : String)
    (h1 : opts.outputFormat ≠ "narrative") (h2 : opts.outputFormat ≠ "structured")
    (hc : "hypertension" ∈ (extractMedicalInfo (preprocessText text)).conditions) :
    containsStr (generate text fileName opts bodyTs footerTs) "I10" :=
  generate_I10_of_hypertension text fileName opts bodyTs footerTs h1 h2 hc

theorem generatePMH_icd10_unconditional_witness :
    (("soap" : String) ≠ "narrative") ∧ (("soap" : String) ≠ "structured") ∧
    ("hypertension" ∈ (extractMedicalInfo (preprocessText "hypertension")).conditions) ∧
    containsStr
      (generate "hypertension" "f.txt" ⟨"soap", "standard", true, true⟩ "T" "F")
      "I10" :=
  ⟨by decide, by decide, by decide,
   generatePMH_icd10_unconditional "hypertension" "f.txt"
     ⟨"soap", "standard", true, true⟩ "T" "F" (by decide) (by decide) (by decide)⟩

/-! ### C2: unknown output format falls back to the SOAP template, but the
footer echoes the raw format value -/

/-- Shared engine for C2: with any `outputFormat` outside
narrative/structured, `generate` produces the same output as
`outputFormat = "soap"` up to the footer's echoed format token. -/
theorem generate_format_decomp (text fileName fmt dl : String)
    (i m : Bool) (bodyTs footerTs : String)
    (h1 : fmt ≠ "narrative") (h2 : fmt ≠ "structured") :
    ∃ pre post : String,
      generate text fileName ⟨fmt, dl, i, m⟩ bodyTs footerTs =
        pre ++ ((if fmt = "" then "SOAP" else fmt) ++ post) ∧
      generate text fileName ⟨"soap", dl, i, m⟩ bodyTs footerTs =
        pre ++ ("soap" ++ post) := by
  refine ⟨generateSOAPNote
      (enhanceMedicalInfo (extractMedicalInfo (preprocessText text)) ⟨fmt, dl, i, m⟩)
      ⟨fmt, dl, i, m⟩ bodyTs ++ "\n\n" ++
      ("\nDOCUMENT METADATA:\n" ++ "=======" ++ "=======" ++ "===" ++ "\nSource File: " ++
        fileName ++ "\nGenerated: " ++ footerTs ++ "\nFormat: "),
    "\nDetail Level: " ++ (if dl = "" then "standard" else dl) ++ "\nICD-10 Codes: " ++
      (if i then "Included" else "Not included") ++ "\nMedications: " ++
      (if m then "Included" else "Not included") ++
      "\nGenerator: Clinical History AI Agent v1.0\n\nIMPORTANT DISCLAIMERS:\n" ++ "=======" ++
      "=======" ++ "=======" ++ "\n• This clinical history is AI-generated from source documentation\n• All information should be verified through direct patient assessment\n• Clinical correlation and professional judgment are required\n• This tool is for clinical decision support only\n• Always follow institutional protocols and guidelines\n\n",
    ?_, ?_⟩
  · simp only [generate, addMetadataAndValidation, metadataBlock]
    by_cases hf : fmt = "soap"
    · subst hf
      simp only [if_true, String.append_assoc]
    · rw [if_neg hf, if_neg h1, if_neg h2]
      simp only [String.append_assoc]
  · simp only [generate, addMetadataAndValidation, metadataBlock]
    simp only [if_true, String.append_assoc]
    rfl

/-- C2 (counterexample): with an unknown `outputFormat` the full rendered
output is NOT identical to the `soap` rendering even with identical
timestamps — the metadata footer's Format line echoes the raw option
value. -/
theorem unknown_format_output_differs :
    generate "chest pain" "f.txt" ⟨"unknown-value", "standard", true, true⟩ "T" "F" ≠
      generate "chest pain" "f.txt" ⟨"soap", "standard", true, true⟩ "T" "F" := by
  obtain ⟨pre, post, e1, e2⟩ := generate_format_decomp "chest pain" "f.txt"
    "unknown-value" "standard" true true "T" "F" (by decide) (by decide)
  intro heq
  rw [e1, e2] at heq
  rw [show (if ("unknown-value" : String) = "" then ("SOAP" : String)
      else "unknown-value") = "unknown-value" from by decide] at heq
  have hd := congrArg String.data heq
  simp only [String.data_append] at hd
  have hd2 := List.append_cancel_left hd
  have hh : (("unknown-value" : String).data ++ post.data).head? =
      (("soap" : String).data ++ post.data).head? := congrArg List.head? hd2
  have hh2 : some 'u' = some 's' := hh
  exact absurd (Option.some.inj hh2) (by decide)

/-- C2 (amended): with any `outputFormat` outside
narrative/structured, `generate` renders the same SOAP report body as
`outputFormat = "soap"` and appends the same metadata footer except for
the footer's Format line, which echoes the raw option value (`"SOAP"`
when it is empty): the two outputs share a common prefix and a common
suffix and differ exactly in that echoed token. -/
theorem unknown_format_defaults_to_soap (text fileName fmt dl : String)
    (i m : Bool) (bodyTs footerTs : String)
    (h1 : fmt ≠ "narrative") (h2 : fmt ≠ "structured") :
    ∃ pre post : String,
      generate text fileName ⟨fmt, dl, i, m⟩ bodyTs footerTs =
        pre ++ ((if fmt = "" then "SOAP" else fmt) ++ post) ∧
      generate text fileName ⟨"soap", dl, i, m⟩ bodyTs footerTs =
        pre ++ ("soap" ++ post) :=
  generate_format_decomp text fileName fmt dl i m bodyTs footerTs h1 h2

theorem unknown_format_defaults_to_soap_witness :
    ("unknown-value" ≠ "narrative") ∧ ("unknown-value" ≠ "structured") ∧
    (∃ pre post : String,
      generate "chest pain" "f.txt" ⟨"unknown-value", "standard", true, true⟩ "T" "F" =
        pre ++ ((if ("unknown-value" : String) = "" then "SOAP" else "unknown-value") ++ post) ∧
      generate "chest pain" "f.txt" ⟨"soap", "standard", true, true⟩ "T" "F" =
        pre ++ ("soap" ++ post)) :=
  ⟨by decide, by decide,
   unknown_format_defaults_to_soap "chest pain" "f.txt" "unknown-value" "standard"
     true true "T" "F" (by decide) (by decide)⟩

/-! ### C9: a null allergies field renders as affirmative NKDA -/

theorem containsStr_head2 {m1 m2 b n : String}
    (h : n.data <:+: (m1 ++ m2).data) : containsStr (m1 ++ (m2 ++ b)) n := by
  unfold containsStr
  rw [String.data_append, String.data_append, ← List.append_assoc]
  rw [String.data_append] at h
  exact h.trans (List.prefix_append _ _).isInfix

/-- C9: whenever the enriched record's `allergies` field is `none`, the
SOAP and structured templates both render the Allergies section as the
affirmative fixed string "NKDA (No Known Drug Allergies)" — absence of
allergy data is presented as confirmed absence of allergies, not as a
to-be-obtained placeholder. -/
theorem nkda_rendered_on_null (info : EnhancedInfo) (opts : GenOptions)
    (ts : String) (hall : info.allergies = none) :
    containsStr (generateSOAPNote info opts ts)
      "Allergies:\nNKDA (No Known Drug Allergies)" ∧
    containsStr (generateStructuredHistory info opts ts)
      "6. ALLERGIES\n   NKDA (No Known Drug Allergies)" := by
  constructor
  · unfold generateSOAPNote
    rw [hall]
    simp only [String.append_assoc]
    iterate 23 apply containsStr_append_right
    apply containsStr_head2
    decide
  · unfold generateStructuredHistory
    rw [hall]
    simp only [String.append_assoc]
    iterate 25 apply containsStr_append_right
    apply containsStr_head2
    decide

theorem nkda_rendered_on_null_witness :
    (enhanceMedicalInfo (extractMedicalInfo "chest pain")
        ⟨"soap", "standard", true, true⟩).allergies = none ∧
    (containsStr
      (generateSOAPNote
        (enhanceMedicalInfo (extractMedicalInfo "chest pain")
          ⟨"soap", "standard", true, true⟩)
        ⟨"soap", "standard", true, true⟩ "2024-01-01")
      "Allergies:\nNKDA (No Known Drug Allergies)" ∧
    containsStr
      (generateStructuredHistory
        (enhanceMedicalInfo (extractMedicalInfo "chest pain")
          ⟨"soap", "standard", true, true⟩)
        ⟨"soap", "standard", true, true⟩ "2024-01-01")
      "6. ALLERGIES\n   NKDA (No Known Drug Allergies)") :=
  ⟨by decide,
   nkda_rendered_on_null
     (enhanceMedicalInfo (extractMedicalInfo "chest pain")
       ⟨"soap", "standard", true, true⟩)
     ⟨"soap", "standard", true, true⟩ "2024-01-01" (by decide)⟩

end ClinicalGen

